import Mathlib

/-!
# NSWallet wallet ledger engine - shallow embedding

This file embeds the core of `WalletsService` (src/wallets/wallets.service.ts),
`TransactionsService` (src/wallets/transactions.service.ts), `AuditService`
(src/audit/audit.service.ts), the DTO validation rules
(src/wallets/dto/create-wallet.dto.ts, fund-wallet.dto.ts, withdraw-wallet.dto.ts)
and the storage layer (prisma schema migration, src/prisma/prisma.service.ts)
into Lean, and proves / refutes the specification's claims about them.

Monetary values (`DECIMAL(19,4)` in the schema) are modelled as integers in
units of 10^-4 (the fixed scale), so `plus`/`minus`/`lessThan` on `Decimal`
become `+`/`-`/`<` on `Int`. Timestamps are abstracted to `Nat`. The database
is a record of the wallet rows, the transaction (ledger) rows and a count of
audit-log rows. A Prisma `$transaction` whose callback throws rolls back: this
is modelled by the `...Once` wrappers, which keep the pre-state on error.

The optimistic-locking race is modelled by letting an atomic unit read its
snapshot from one state (`snap`) while its conditional update hits another
(`db`): a concurrent writer that committed between the read and the update is
exactly the case `snap ≠ db` on that wallet row. The sequential case is
`snap = db`.
-/

namespace NSWallet

/-- `TransactionType` enum from the prisma schema (CREDIT | DEBIT). -/
inductive TxnType where
  | CREDIT
  | DEBIT
deriving DecidableEq

/-- The typed failures of the wallet service, one constructor per thrown
exception class / message family in the source:
`notFound` = `NotFoundException('Wallet not found')`,
`walletDeleted` = `BadRequestException('Wallet has been deleted')`,
`insufficientFunds` = `BadRequestException('Insufficient funds...')`,
`concurrentModification` = `ConflictException('Concurrent modification detected - retry')`,
`highContention` = `ConflictException('Operation failed due to high concurrency...')`,
`duplicateReference` = the Prisma unique-constraint violation on
`transactions_reference_key`,
`currencyMismatch` = `BadRequestException('Cross-currency transfers require conversion...')`,
`alreadyExists` = the unique-constraint violation on (userId, name, currency),
`auditFailure` = the error rethrown by `AuditService.log`. -/
inductive SvcError where
  | notFound
  | walletDeleted
  | insufficientFunds
  | concurrentModification
  | highContention
  | duplicateReference
  | currencyMismatch
  | alreadyExists
  | auditFailure
deriving DecidableEq

/-- A row of the `wallets` table (id, name, currency, balance DECIMAL(19,4),
version, userId, deletedAt). Balance is in units of 10^-4. -/
structure WalletRec where
  id : String
  name : String
  currency : String
  balance : Int
  version : Nat
  userId : String
  deletedAt : Option Nat
deriving DecidableEq

/-- A row of the `transactions` table (the append-only ledger): walletId,
type, amount, balanceBefore, balanceAfter, reference (globally unique),
performedByUserId. Description/metadata/timestamps are irrelevant to the
claims and omitted. -/
structure TxnRec where
  walletId : String
  type : TxnType
  amount : Int
  balanceBefore : Int
  balanceAfter : Int
  reference : String
  performedByUserId : String
deriving DecidableEq

/-- The database state: wallet rows, ledger rows, and the number of
audit-log rows (the content of audit rows is irrelevant to the claims). -/
structure DB where
  wallets : List WalletRec
  transactions : List TxnRec
  auditCount : Nat
deriving DecidableEq

/-- `tx.wallet.findUnique({ where: { id } })` (no soft-delete middleware is
installed by the active `PrismaService.onModuleInit`, so no `deletedAt`
filter is applied). -/
def walletFindUnique (db : DB) (id : String) : Option WalletRec :=
  db.wallets.find? (fun w => w.id == id)

/-- The row predicate of the optimistic-locking `updateMany`:
`where: { id, version }`. -/
def walletMatchOpt (id : String) (v : Nat) (w : WalletRec) : Bool :=
  w.id == id && w.version == v

/-- The row transformation of the conditional update: set the balance and
increment the version by 1 on every matching row. -/
def applyOptUpdate (id : String) (v : Nat) (nb : Int)
    (l : List WalletRec) : List WalletRec :=
  l.map (fun w =>
    if walletMatchOpt id v w then
      { w with balance := nb, version := w.version + 1 }
    else w)

/-- `tx.wallet.updateMany({ where: { id, version }, data: { balance, version:
{ increment: 1 } } })`: conditionally updates every row whose id and version
match, and reports the matched-row count (`updated.count`). -/
def walletUpdateMany (db : DB) (id : String) (expectedVersion : Nat)
    (newBalance : Int) : DB × Nat :=
  ({ db with wallets := applyOptUpdate id expectedVersion newBalance db.wallets },
   (db.wallets.filter (walletMatchOpt id expectedVersion)).length)

/-- The row transformation of `transfer`'s unconditional `update`: add
`delta` to the balance and increment the version on the row with the given
id. -/
def applyDelta (id : String) (delta : Int) (l : List WalletRec) :
    List WalletRec :=
  l.map (fun w =>
    if w.id == id then
      { w with balance := w.balance + delta, version := w.version + 1 }
    else w)

/-- `tx.wallet.update({ where: { id }, data })` with a balance delta and a
version increment, as used by `transfer` (no version guard: the rows are
protected by `FOR UPDATE` row locks instead). -/
def walletUpdateDelta (db : DB) (id : String) (delta : Int) : DB :=
  { db with wallets := applyDelta id delta db.wallets }

/-- `TransactionsService.create`: `tx.transaction.create({ data })`. The
unique index `transactions_reference_key` rejects a duplicate reference. -/
def transactionCreate (db : DB) (t : TxnRec) : Except SvcError DB :=
  if db.transactions.any (fun r => r.reference == t.reference) then
    .error .duplicateReference
  else
    .ok { db with transactions := db.transactions ++ [t] }

/-- `AuditService.log`: creates an audit row; on storage failure it logs the
error and rethrows it (`catch (error) { this.logger.error(...); throw error; }`).
The `auditOk` flag models whether the underlying `auditLog.create` succeeds. -/
def auditLog (db : DB) (auditOk : Bool) : Except SvcError DB :=
  if auditOk then .ok { db with auditCount := db.auditCount + 1 }
  else .error .auditFailure

/-- The list `SUPPORTED_CURRENCIES` exported by create-wallet.dto.ts. -/
def SUPPORTED_CURRENCIES : List String :=
  ["NGN", "USD", "EUR", "GBP", "KES", "GHS", "AUD", "CAD", "ZAR"]

/-- The class-validator rules on `CreateWalletDto.currency`:
`@Length(3, 3)` and `@Matches(/^[A-Z]{3}$/)`. Note the DTO never checks
membership in `SUPPORTED_CURRENCIES`. -/
def currencyDtoValid (c : String) : Bool :=
  c.length == 3 && c.toList.all (fun ch => 'A' ≤ ch && ch ≤ 'Z')

/-- The class-validator rules on `FundWalletDto.amount` /
`WithdrawWalletDto.amount`: `@IsNumber({ maxDecimalPlaces: 4 })` and
`@IsPositive`. In the 10^-4 scaled integer model this is strict positivity. -/
def amountDtoValid (a : Int) : Bool :=
  decide (0 < a)

/-- JavaScript `String.prototype.toUpperCase()` restricted to the ASCII
range, as applied to 3-letter currency codes: uppercase every character. -/
def toUpperAscii (s : String) : String :=
  ⟨s.data.map Char.toUpper⟩

/-- `WalletsService.create`: inserts a wallet with `balance: 0, version: 0`,
currency uppercased; the unique index on (userId, name, currency) rejects a
colliding row; then `auditService.log` is awaited (outside any transaction,
so the insert stays committed even when the audit call throws). `newId` is
the id generated by the database. -/
def createWallet (db : DB) (newId userId name currency : String)
    (auditOk : Bool) : DB × Except SvcError WalletRec :=
  let cur := toUpperAscii currency
  if db.wallets.any (fun w =>
      w.userId == userId && w.name == name && w.currency == cur) then
    (db, .error .alreadyExists)
  else
    let w : WalletRec :=
      { id := newId, name := name, currency := cur, balance := 0,
        version := 0, userId := userId, deletedAt := none }
    let db1 : DB := { db with wallets := db.wallets ++ [w] }
    match auditLog db1 auditOk with
    | .ok db2 => (db2, .ok w)
    | .error e => (db1, .error e)

/-- The body of the `$transaction` callback of `WalletsService.fund`:
read the wallet, fail `notFound` / `walletDeleted`, compute
`balanceAfter = balanceBefore.plus(amount)`, run the version-guarded
`updateMany` (against `db`, the state at update time; the read used `snap`),
fail `concurrentModification` on count 0, append the CREDIT ledger record
with reference `dto.reference || generateTransactionReference()`, re-read the
wallet, and write the audit row. -/
def fundTx (snap db : DB) (id : String) (amount : Int)
    (dtoRef : Option String) (genRef : String) (performedBy : String)
    (auditOk : Bool) : Except SvcError (DB × WalletRec) :=
  match walletFindUnique snap id with
  | none => .error .notFound
  | some wallet =>
    if wallet.deletedAt.isSome then .error .walletDeleted
    else
      let balanceBefore := wallet.balance
      let balanceAfter := balanceBefore + amount
      let upd := walletUpdateMany db id wallet.version balanceAfter
      if upd.2 == 0 then .error .concurrentModification
      else
        match transactionCreate upd.1
            { walletId := id, type := .CREDIT, amount := amount,
              balanceBefore := balanceBefore, balanceAfter := balanceAfter,
              reference := dtoRef.getD genRef,
              performedByUserId := performedBy } with
        | .error e => .error e
        | .ok db3 =>
          match walletFindUnique db3 id with
          | none => .error .notFound
          | some updatedWallet =>
            match auditLog db3 auditOk with
            | .error e => .error e
            | .ok db4 => .ok (db4, updatedWallet)

/-- The body of the `$transaction` callback of `WalletsService.withdraw`:
like `fundTx` but `balanceAfter = balanceBefore.minus(amount)`, with the
in-unit sufficiency check `if (balanceAfter.lessThan(0)) throw
BadRequestException('Insufficient funds...')` before the guarded update, and
a DEBIT ledger record. -/
def withdrawTx (snap db : DB) (id : String) (amount : Int)
    (dtoRef : Option String) (genRef : String) (performedBy : String)
    (auditOk : Bool) : Except SvcError (DB × WalletRec) :=
  match walletFindUnique snap id with
  | none => .error .notFound
  | some wallet =>
    if wallet.deletedAt.isSome then .error .walletDeleted
    else
      let balanceBefore := wallet.balance
      let balanceAfter := balanceBefore - amount
      if balanceAfter < 0 then .error .insufficientFunds
      else
        let upd := walletUpdateMany db id wallet.version balanceAfter
        if upd.2 == 0 then .error .concurrentModification
        else
          match transactionCreate upd.1
              { walletId := id, type := .DEBIT, amount := amount,
                balanceBefore := balanceBefore, balanceAfter := balanceAfter,
                reference := dtoRef.getD genRef,
                performedByUserId := performedBy } with
          | .error e => .error e
          | .ok db3 =>
            match walletFindUnique db3 id with
            | none => .error .notFound
            | some updatedWallet =>
              match auditLog db3 auditOk with
              | .error e => .error e
              | .ok db4 => .ok (db4, updatedWallet)

/-- One execution of `prisma.$transaction(fundTx)`: on a thrown error the
whole unit rolls back, so the committed state stays `db`. -/
def fundOnce (snap db : DB) (id : String) (amount : Int)
    (dtoRef : Option String) (genRef : String) (performedBy : String)
    (auditOk : Bool) : DB × Except SvcError WalletRec :=
  match fundTx snap db id amount dtoRef genRef performedBy auditOk with
  | .ok (db', w) => (db', .ok w)
  | .error e => (db, .error e)

/-- One execution of `prisma.$transaction(withdrawTx)` with rollback on
error. -/
def withdrawOnce (snap db : DB) (id : String) (amount : Int)
    (dtoRef : Option String) (genRef : String) (performedBy : String)
    (auditOk : Bool) : DB × Except SvcError WalletRec :=
  match withdrawTx snap db id amount dtoRef genRef performedBy auditOk with
  | .ok (db', w) => (db', .ok w)
  | .error e => (db, .error e)

/-- The body of the `$transaction` callback of `WalletsService.transfer`:
after the `FOR UPDATE` locks (serialization is implicit in this sequential
model) it reads both wallets, fails `notFound` if either is missing,
`currencyMismatch` if the currencies differ, `insufficientFunds` when
`fromWallet.balance.lessThan(amount)`, then debits the source, appends the
DEBIT record with reference `genRef ++ "-OUT"`, credits the destination,
appends the CREDIT record with reference `genRef ++ "-IN"`, and re-reads
both wallets. `genRef` is the single `generateTransactionReference()` stem. -/
def transferTx (db : DB) (fromId toId : String) (amount : Int)
    (performedBy : String) (genRef : String) :
    Except SvcError (DB × WalletRec × WalletRec) :=
  match walletFindUnique db fromId, walletFindUnique db toId with
  | some fromW, some toW =>
    if fromW.currency != toW.currency then .error .currencyMismatch
    else if fromW.balance < amount then .error .insufficientFunds
    else
      let db1 := walletUpdateDelta db fromId (-amount)
      match transactionCreate db1
          { walletId := fromId, type := .DEBIT, amount := amount,
            balanceBefore := fromW.balance,
            balanceAfter := fromW.balance - amount,
            reference := genRef ++ "-OUT",
            performedByUserId := performedBy } with
      | .error e => .error e
      | .ok db2 =>
        let db3 := walletUpdateDelta db2 toId amount
        match transactionCreate db3
            { walletId := toId, type := .CREDIT, amount := amount,
              balanceBefore := toW.balance,
              balanceAfter := toW.balance + amount,
              reference := genRef ++ "-IN",
              performedByUserId := performedBy } with
        | .error e => .error e
        | .ok db4 =>
          match walletFindUnique db4 fromId, walletFindUnique db4 toId with
          | some uf, some ut => .ok (db4, uf, ut)
          | _, _ => .error .notFound
  | _, _ => .error .notFound

/-- One execution of `prisma.$transaction(transferTx)` with rollback on
error: either both legs commit or neither does. -/
def transferOnce (db : DB) (fromId toId : String) (amount : Int)
    (performedBy : String) (genRef : String) :
    DB × Except SvcError (WalletRec × WalletRec) :=
  match transferTx db fromId toId amount performedBy genRef with
  | .ok (db', p) => (db', .ok p)
  | .error e => (db, .error e)

/-- `WalletsService.delete`: `findByIdOrFail`, ownership check (`NotFound`
on mismatch), then `prisma.wallet.delete({ where: { id } })`. The active
`PrismaService` (src/prisma/prisma.service.ts) installs no soft-delete
middleware ("Soft delete middleware is not available in Prisma 6"), so this
is a physical row delete, and `transactions_walletId_fkey ... ON DELETE
CASCADE` removes the wallet's ledger rows with it. The audit row is written
after the delete has committed. -/
def deleteWallet (db : DB) (id userId : String) (auditOk : Bool) :
    DB × Except SvcError Unit :=
  match walletFindUnique db id with
  | none => (db, .error .notFound)
  | some w =>
    if w.userId != userId then (db, .error .notFound)
    else
      let db1 : DB :=
        { db with
          wallets := db.wallets.filter (fun x => !(x.id == id)),
          transactions := db.transactions.filter (fun t => !(t.walletId == id)) }
      match auditLog db1 auditOk with
      | .ok db2 => (db2, .ok ())
      | .error e => (db1, .error e)

/-- The catch condition of `executeWithRetry`: `error instanceof
ConflictException && error.message.includes('Concurrent modification')`.
Only the optimistic-lock conflict matches; the terminal high-concurrency
`ConflictException` does not contain that message. -/
def isRetryableConflict : SvcError → Bool
  | .concurrentModification => true
  | _ => false

/-- `MAX_RETRIES = 3` in `WalletsService`. -/
def MAX_RETRIES : Nat := 3

/-- The observable trace of one `executeWithRetry` call: the final result,
the list of backoff sleeps (in milliseconds) in order, and how many times
the wrapped operation was executed. -/
structure RetryTrace (α : Type) where
  result : Except SvcError α
  sleeps : List Nat
  execs : Nat

/-- The loop `for (attempt = 1; attempt <= retries; attempt++)` of
`executeWithRetry`, with `op k` the outcome of the k-th execution of the
wrapped operation: a retryable conflict records the backoff sleep
`Math.pow(2, attempt) * 10` and continues; any other error is rethrown
unchanged; exhausting the loop throws the high-concurrency error. -/
def executeWithRetryLoop (op : Nat → Except SvcError α) (attempt : Nat) :
    Nat → RetryTrace α
  | 0 => ⟨.error .highContention, [], 0⟩
  | remaining + 1 =>
    match op attempt with
    | .ok v => ⟨.ok v, [], 1⟩
    | .error e =>
      if isRetryableConflict e then
        let t := executeWithRetryLoop op (attempt + 1) remaining
        ⟨t.result, 2 ^ attempt * 10 :: t.sleeps, t.execs + 1⟩
      else ⟨.error e, [], 1⟩

/-- `WalletsService.executeWithRetry(operation, retries)`, starting at
attempt 1. -/
def executeWithRetry (op : Nat → Except SvcError α) (retries : Nat) :
    RetryTrace α :=
  executeWithRetryLoop op 1 retries

/-- Well-formedness of a database state: wallet ids are unique (the primary
key of the `wallets` table). -/
def DB.walletIdsNodup (db : DB) : Prop :=
  (db.wallets.map (fun w => w.id)).Nodup

instance (db : DB) : Decidable db.walletIdsNodup := by
  unfold DB.walletIdsNodup
  infer_instance

instance {ε α : Type} [DecidableEq ε] [DecidableEq α] :
    DecidableEq (Except ε α) := fun x y =>
  match x, y with
  | .error e₁, .error e₂ =>
    if h : e₁ = e₂ then .isTrue (h ▸ rfl)
    else .isFalse (fun hc => h (Except.error.inj hc))
  | .error _, .ok _ => .isFalse (fun hc => Except.noConfusion hc)
  | .ok _, .error _ => .isFalse (fun hc => Except.noConfusion hc)
  | .ok a₁, .ok a₂ =>
    if h : a₁ = a₂ then .isTrue (h ▸ rfl)
    else .isFalse (fun hc => h (Except.ok.inj hc))

/-! ## Store-level helper lemmas -/

/-- Finding by id in a list mapped by an id-preserving guarded update is the
guarded update of the original find. -/
theorem find?_map_guard (p : WalletRec → Bool) (g : WalletRec → WalletRec)
    (hg : ∀ w, (g w).id = w.id) (id' : String) :
    ∀ l : List WalletRec,
      (l.map (fun w => if p w then g w else w)).find? (fun w => w.id == id')
        = (l.find? (fun w => w.id == id')).map (fun w => if p w then g w else w)
  | [] => rfl
  | h :: t => by
    have hid : ((if p h then g h else h).id == id') = (h.id == id') := by
      by_cases hp : p h <;> simp [hp, hg]
    by_cases hmatch : (h.id == id') = true
    · rw [List.map_cons,
        List.find?_cons_of_pos (p := fun (w : WalletRec) => w.id == id') _
          (by simp only [hid]; exact hmatch),
        List.find?_cons_of_pos (p := fun (w : WalletRec) => w.id == id') _ hmatch]
      rfl
    · rw [List.map_cons,
        List.find?_cons_of_neg (p := fun (w : WalletRec) => w.id == id') _
          (by simp only [hid]; exact hmatch),
        List.find?_cons_of_neg (p := fun (w : WalletRec) => w.id == id') _ hmatch,
        find?_map_guard p g hg id' t]

/-- With unique wallet ids, any member sharing the id of the found row is
the found row. -/
theorem mem_id_eq_find (l : List WalletRec) (id : String) (w x : WalletRec)
    (hnd : (l.map (fun y => y.id)).Nodup)
    (hf : l.find? (fun y => y.id == id) = some w)
    (hx : x ∈ l) (hxid : x.id = id) : x = w := by
  induction l with
  | nil => cases hx
  | cons h t ih =>
    rw [List.map_cons, List.nodup_cons] at hnd
    rcases List.mem_cons.mp hx with hxh | hxt
    · subst hxh
      rw [List.find?_cons_of_pos (p := fun (y : WalletRec) => y.id == id) _ (by simp [hxid])] at hf
      exact (Option.some.inj hf)
    · by_cases hh : (h.id == id) = true
      · exfalso
        apply hnd.1
        rw [List.mem_map]
        refine ⟨x, hxt, ?_⟩
        have : h.id = id := by simpa using hh
        rw [hxid, this]
      · rw [List.find?_cons_of_neg (p := fun (y : WalletRec) => y.id == id) _ hh] at hf
        exact ih hnd.2 hf hxt

/-- When the row found by id carries the expected version, the conditional
update rewrites that row. -/
theorem applyOptUpdate_find_of_version_eq (l : List WalletRec) (id : String)
    (v : Nat) (nb : Int) (w : WalletRec)
    (hf : l.find? (fun x => x.id == id) = some w) (hv : w.version = v) :
    (applyOptUpdate id v nb l).find? (fun x => x.id == id)
      = some { w with balance := nb, version := w.version + 1 } := by
  unfold applyOptUpdate
  rw [find?_map_guard (walletMatchOpt id v)
    (fun w => { w with balance := nb, version := w.version + 1 })
    (fun x => rfl) id l, hf]
  have hid : w.id = id := by
    simpa using List.find?_some (p := fun (x : WalletRec) => x.id == id) hf
  simp [walletMatchOpt, hid, hv]

/-- When the row found by id carries the expected version, the conditional
update matches at least one row. -/
theorem filter_matchOpt_ne_nil (l : List WalletRec) (id : String) (v : Nat)
    (w : WalletRec) (hf : l.find? (fun x => x.id == id) = some w)
    (hv : w.version = v) :
    l.filter (walletMatchOpt id v) ≠ [] := by
  have hmem : w ∈ l := List.mem_of_find?_eq_some hf
  have hid : (w.id == id) = true := List.find?_some (p := fun (x : WalletRec) => x.id == id) hf
  intro hnil
  have hwf : w ∈ l.filter (walletMatchOpt id v) := by
    rw [List.mem_filter]
    exact ⟨hmem, by simp [walletMatchOpt, hid, hv]⟩
  rw [hnil] at hwf
  exact absurd hwf (List.not_mem_nil w)

/-- With unique wallet ids, a stale expected version matches no row: the
conditional update reports count 0. -/
theorem filter_matchOpt_nil (l : List WalletRec) (id : String) (v : Nat)
    (w : WalletRec) (hnd : (l.map (fun y => y.id)).Nodup)
    (hf : l.find? (fun x => x.id == id) = some w) (hv : w.version ≠ v) :
    l.filter (walletMatchOpt id v) = [] := by
  rw [List.filter_eq_nil_iff]
  intro x hx hmatch
  have hxm : x.id = id ∧ x.version = v := by
    simpa [walletMatchOpt] using hmatch
  have hxw : x = w := mem_id_eq_find l id w x hnd hf hx hxm.1
  exact hv (hxw ▸ hxm.2)

/-- Rows with a different id are untouched by the conditional update. -/
theorem applyOptUpdate_find_other (l : List WalletRec) (id id' : String)
    (v : Nat) (nb : Int) (hne : id' ≠ id) :
    (applyOptUpdate id v nb l).find? (fun x => x.id == id')
      = l.find? (fun x => x.id == id') := by
  unfold applyOptUpdate
  rw [find?_map_guard (walletMatchOpt id v)
    (fun w => { w with balance := nb, version := w.version + 1 })
    (fun x => rfl) id' l]
  cases hf : l.find? (fun x => x.id == id') with
  | none => rfl
  | some w =>
    have hwid : w.id = id' := by
      simpa using List.find?_some (p := fun (x : WalletRec) => x.id == id') hf
    have hfalse : walletMatchOpt id v w = false := by
      simp [walletMatchOpt, hwid]
      intro h
      exact absurd h hne
    simp [hfalse]

/-- The delta update of `transfer` rewrites the row found by id. -/
theorem applyDelta_find_self (l : List WalletRec) (id : String) (d : Int)
    (w : WalletRec) (hf : l.find? (fun x => x.id == id) = some w) :
    (applyDelta id d l).find? (fun x => x.id == id)
      = some { w with balance := w.balance + d, version := w.version + 1 } := by
  unfold applyDelta
  rw [find?_map_guard (fun x => x.id == id)
    (fun w => { w with balance := w.balance + d, version := w.version + 1 })
    (fun x => rfl) id l, hf]
  have hid : w.id = id := by
    simpa using List.find?_some (p := fun (x : WalletRec) => x.id == id) hf
  simp [hid]

/-- The delta update of `transfer` leaves rows with a different id alone. -/
theorem applyDelta_find_other (l : List WalletRec) (id id' : String)
    (d : Int) (hne : id' ≠ id) :
    (applyDelta id d l).find? (fun x => x.id == id')
      = l.find? (fun x => x.id == id') := by
  unfold applyDelta
  rw [find?_map_guard (fun x => x.id == id)
    (fun w => { w with balance := w.balance + d, version := w.version + 1 })
    (fun x => rfl) id' l]
  cases hf : l.find? (fun x => x.id == id') with
  | none => rfl
  | some w =>
    have hwid : w.id = id' := by
      simpa using List.find?_some (p := fun (x : WalletRec) => x.id == id') hf
    simp [hwid, hne]

/-- Every row after a conditional update is either an original row or
carries the written balance. -/
theorem mem_applyOptUpdate (l : List WalletRec) (id : String) (v : Nat)
    (nb : Int) (x : WalletRec) (hx : x ∈ applyOptUpdate id v nb l) :
    x ∈ l ∨ x.balance = nb := by
  unfold applyOptUpdate at hx
  rcases List.mem_map.mp hx with ⟨w, hw, hwx⟩
  by_cases hp : walletMatchOpt id v w = true
  · right
    rw [← hwx]
    simp [hp]
  · left
    rw [← hwx]
    simp [hp]
    exact hw

/-- A fresh reference passes the unique-index check of the ledger append. -/
theorem transactionCreate_ok (db : DB) (t : TxnRec)
    (h : ∀ r ∈ db.transactions, ¬ r.reference = t.reference) :
    transactionCreate db t
      = .ok { db with transactions := db.transactions ++ [t] } := by
  have hany : db.transactions.any (fun r => r.reference == t.reference) = false := by
    rw [List.any_eq_false]
    intro r hr
    simpa using h r hr
  unfold transactionCreate
  rw [hany]
  rfl

/-- An existing reference violates `transactions_reference_key`. -/
theorem transactionCreate_dup (db : DB) (t r0 : TxnRec)
    (hmem : r0 ∈ db.transactions) (hr : r0.reference = t.reference) :
    transactionCreate db t = .error .duplicateReference := by
  have hany : db.transactions.any (fun r => r.reference == t.reference) = true := by
    rw [List.any_eq_true]
    exact ⟨r0, hmem, by simp [hr]⟩
  unfold transactionCreate
  rw [hany]
  rfl

/-! ## Characterization of one fund / withdraw attempt -/

/-- When the live row's version no longer equals the version read in the
snapshot, the conditional update of `fund` matches zero rows and the attempt
rolls back with the concurrent-modification conflict. -/
theorem fundOnce_conflict (snap db : DB) (id : String) (amt : Int)
    (dtoRef : Option String) (gen u : String) (aud : Bool)
    (wr wd : WalletRec)
    (hnd : db.walletIdsNodup)
    (hsnap : walletFindUnique snap id = some wr)
    (hdb : walletFindUnique db id = some wd)
    (hdel : wr.deletedAt = none)
    (hv : wd.version ≠ wr.version) :
    fundOnce snap db id amt dtoRef gen u aud
      = (db, .error .concurrentModification) := by
  have hdb' : db.wallets.find? (fun x => x.id == id) = some wd := hdb
  have hfil : db.wallets.filter (walletMatchOpt id wr.version) = [] :=
    filter_matchOpt_nil db.wallets id wr.version wd hnd hdb' (fun h => hv h)
  unfold fundOnce fundTx walletUpdateMany
  rw [hsnap]
  simp [hdel, hfil]

/-- A successful `fund` attempt: the matched row gets the new balance and a
version bump, one CREDIT ledger record and one audit row are appended. -/
theorem fundOnce_success (snap db : DB) (id : String) (amt : Int)
    (dtoRef : Option String) (gen u : String)
    (wr wd : WalletRec)
    (hsnap : walletFindUnique snap id = some wr)
    (hdb : walletFindUnique db id = some wd)
    (hdel : wr.deletedAt = none)
    (hv : wd.version = wr.version)
    (hfresh : ∀ r ∈ db.transactions, ¬ r.reference = dtoRef.getD gen) :
    fundOnce snap db id amt dtoRef gen u true
      = ({ wallets := applyOptUpdate id wr.version (wr.balance + amt) db.wallets,
           transactions := db.transactions ++
             [{ walletId := id, type := .CREDIT, amount := amt,
                balanceBefore := wr.balance, balanceAfter := wr.balance + amt,
                reference := dtoRef.getD gen, performedByUserId := u }],
           auditCount := db.auditCount + 1 },
         .ok { wd with balance := wr.balance + amt, version := wd.version + 1 }) := by
  obtain ⟨ws, ts, ac⟩ := db
  have hdb' : ws.find? (fun x => x.id == id) = some wd := hdb
  have hlen : (ws.filter (walletMatchOpt id wr.version)).length ≠ 0 := by
    have hne2 := filter_matchOpt_ne_nil ws id wr.version wd hdb' hv
    simpa [List.length_eq_zero] using hne2
  have hfind2 := applyOptUpdate_find_of_version_eq ws id wr.version
    (wr.balance + amt) wd hdb' hv
  have hTC := transactionCreate_ok
    ⟨applyOptUpdate id wr.version (wr.balance + amt) ws, ts, ac⟩
    { walletId := id, type := .CREDIT, amount := amt,
      balanceBefore := wr.balance, balanceAfter := wr.balance + amt,
      reference := dtoRef.getD gen, performedByUserId := u }
    (by simpa using hfresh)
  unfold fundOnce fundTx walletUpdateMany
  rw [hsnap]
  simp only [hdel, Option.isSome_none, Bool.false_eq_true, if_false]
  simp only [hlen, walletFindUnique] at *
  simp [hTC, hfind2, auditLog, hv]
  have hwmem : wd ∈ ws := List.mem_of_find?_eq_some hdb'
  have hwid : wd.id = id := by
    simpa using List.find?_some (p := fun (x : WalletRec) => x.id == id) hdb'
  rw [if_neg]
  intro hall
  have hcontra := hall wd hwmem
  simp [walletMatchOpt, hwid, hv] at hcontra

/-- A `fund` attempt whose reference already exists in the ledger hits the
unique index inside the atomic unit and rolls back completely. -/
theorem fundOnce_dup (snap db : DB) (id : String) (amt : Int)
    (dtoRef : Option String) (gen u : String) (aud : Bool)
    (wr wd : WalletRec) (r0 : TxnRec)
    (hsnap : walletFindUnique snap id = some wr)
    (hdb : walletFindUnique db id = some wd)
    (hdel : wr.deletedAt = none)
    (hv : wd.version = wr.version)
    (hmem : r0 ∈ db.transactions) (hr : r0.reference = dtoRef.getD gen) :
    fundOnce snap db id amt dtoRef gen u aud
      = (db, .error .duplicateReference) := by
  obtain ⟨ws, ts, ac⟩ := db
  have hdb' : ws.find? (fun x => x.id == id) = some wd := hdb
  have hlen : (ws.filter (walletMatchOpt id wr.version)).length ≠ 0 := by
    have hne2 := filter_matchOpt_ne_nil ws id wr.version wd hdb' hv
    simpa [List.length_eq_zero] using hne2
  have hTC := transactionCreate_dup
    ⟨applyOptUpdate id wr.version (wr.balance + amt) ws, ts, ac⟩
    { walletId := id, type := .CREDIT, amount := amt,
      balanceBefore := wr.balance, balanceAfter := wr.balance + amt,
      reference := dtoRef.getD gen, performedByUserId := u } r0 hmem hr
  have hwmem : wd ∈ ws := List.mem_of_find?_eq_some hdb'
  have hwid : wd.id = id := by
    simpa using List.find?_some (p := fun (x : WalletRec) => x.id == id) hdb'
  unfold fundOnce fundTx walletUpdateMany
  rw [hsnap]
  simp only [hdel, Option.isSome_none, Bool.false_eq_true, if_false]
  simp only [hlen, walletFindUnique] at *
  simp [hTC]
  rw [if_neg]
  intro hall
  have hcontra := hall wd hwmem
  simp [walletMatchOpt, hwid, hv] at hcontra

/-- A `fund` attempt whose audit write fails: `AuditService.log` rethrows
inside the atomic unit, so the whole attempt rolls back. -/
theorem fundOnce_auditFail (snap db : DB) (id : String) (amt : Int)
    (dtoRef : Option String) (gen u : String)
    (wr wd : WalletRec)
    (hsnap : walletFindUnique snap id = some wr)
    (hdb : walletFindUnique db id = some wd)
    (hdel : wr.deletedAt = none)
    (hv : wd.version = wr.version)
    (hfresh : ∀ r ∈ db.transactions, ¬ r.reference = dtoRef.getD gen) :
    fundOnce snap db id amt dtoRef gen u false
      = (db, .error .auditFailure) := by
  obtain ⟨ws, ts, ac⟩ := db
  have hdb' : ws.find? (fun x => x.id == id) = some wd := hdb
  have hlen : (ws.filter (walletMatchOpt id wr.version)).length ≠ 0 := by
    have hne2 := filter_matchOpt_ne_nil ws id wr.version wd hdb' hv
    simpa [List.length_eq_zero] using hne2
  have hfind2 := applyOptUpdate_find_of_version_eq ws id wr.version
    (wr.balance + amt) wd hdb' hv
  have hTC := transactionCreate_ok
    ⟨applyOptUpdate id wr.version (wr.balance + amt) ws, ts, ac⟩
    { walletId := id, type := .CREDIT, amount := amt,
      balanceBefore := wr.balance, balanceAfter := wr.balance + amt,
      reference := dtoRef.getD gen, performedByUserId := u }
    (by simpa using hfresh)
  have hwmem : wd ∈ ws := List.mem_of_find?_eq_some hdb'
  have hwid : wd.id = id := by
    simpa using List.find?_some (p := fun (x : WalletRec) => x.id == id) hdb'
  unfold fundOnce fundTx walletUpdateMany
  rw [hsnap]
  simp only [hdel, Option.isSome_none, Bool.false_eq_true, if_false]
  simp only [hlen, walletFindUnique] at *
  simp [hTC, hfind2, auditLog]
  rw [if_neg]
  intro hall
  have hcontra := hall wd hwmem
  simp [walletMatchOpt, hwid, hv] at hcontra

/-! ## Characterization of one withdraw attempt -/

/-- The in-unit sufficiency check: a withdraw whose balance-after would be
negative fails before touching any row. -/
theorem withdrawOnce_insufficient (snap db : DB) (id : String) (amt : Int)
    (dtoRef : Option String) (gen u : String) (aud : Bool)
    (wr : WalletRec)
    (hsnap : walletFindUnique snap id = some wr)
    (hdel : wr.deletedAt = none)
    (hlt : wr.balance - amt < 0) :
    withdrawOnce snap db id amt dtoRef gen u aud
      = (db, .error .insufficientFunds) := by
  unfold withdrawOnce withdrawTx
  rw [hsnap]
  simp [hdel, hlt]

/-- When the live row's version no longer equals the version read in the
snapshot, the conditional update of `withdraw` matches zero rows and the
attempt rolls back with the concurrent-modification conflict. -/
theorem withdrawOnce_conflict (snap db : DB) (id : String) (amt : Int)
    (dtoRef : Option String) (gen u : String) (aud : Bool)
    (wr wd : WalletRec)
    (hnd : db.walletIdsNodup)
    (hsnap : walletFindUnique snap id = some wr)
    (hdb : walletFindUnique db id = some wd)
    (hdel : wr.deletedAt = none)
    (hge : ¬ wr.balance - amt < 0)
    (hv : wd.version ≠ wr.version) :
    withdrawOnce snap db id amt dtoRef gen u aud
      = (db, .error .concurrentModification) := by
  have hdb' : db.wallets.find? (fun x => x.id == id) = some wd := hdb
  have hfil : db.wallets.filter (walletMatchOpt id wr.version) = [] :=
    filter_matchOpt_nil db.wallets id wr.version wd hnd hdb' (fun h => hv h)
  unfold withdrawOnce withdrawTx walletUpdateMany
  rw [hsnap]
  simp [hdel, hge, hfil]

/-- A successful `withdraw` attempt: the matched row gets the debited
balance and a version bump, one DEBIT ledger record and one audit row are
appended. -/
theorem withdrawOnce_success (snap db : DB) (id : String) (amt : Int)
    (dtoRef : Option String) (gen u : String)
    (wr wd : WalletRec)
    (hsnap : walletFindUnique snap id = some wr)
    (hdb : walletFindUnique db id = some wd)
    (hdel : wr.deletedAt = none)
    (hge : ¬ wr.balance - amt < 0)
    (hv : wd.version = wr.version)
    (hfresh : ∀ r ∈ db.transactions, ¬ r.reference = dtoRef.getD gen) :
    withdrawOnce snap db id amt dtoRef gen u true
      = ({ wallets := applyOptUpdate id wr.version (wr.balance - amt) db.wallets,
           transactions := db.transactions ++
             [{ walletId := id, type := .DEBIT, amount := amt,
                balanceBefore := wr.balance, balanceAfter := wr.balance - amt,
                reference := dtoRef.getD gen, performedByUserId := u }],
           auditCount := db.auditCount + 1 },
         .ok { wd with balance := wr.balance - amt, version := wd.version + 1 }) := by
  obtain ⟨ws, ts, ac⟩ := db
  have hdb' : ws.find? (fun x => x.id == id) = some wd := hdb
  have hlen : (ws.filter (walletMatchOpt id wr.version)).length ≠ 0 := by
    have hne2 := filter_matchOpt_ne_nil ws id wr.version wd hdb' hv
    simpa [List.length_eq_zero] using hne2
  have hfind2 := applyOptUpdate_find_of_version_eq ws id wr.version
    (wr.balance - amt) wd hdb' hv
  have hTC := transactionCreate_ok
    ⟨applyOptUpdate id wr.version (wr.balance - amt) ws, ts, ac⟩
    { walletId := id, type := .DEBIT, amount := amt,
      balanceBefore := wr.balance, balanceAfter := wr.balance - amt,
      reference := dtoRef.getD gen, performedByUserId := u }
    (by simpa using hfresh)
  have hwmem : wd ∈ ws := List.mem_of_find?_eq_some hdb'
  have hwid : wd.id = id := by
    simpa using List.find?_some (p := fun (x : WalletRec) => x.id == id) hdb'
  unfold withdrawOnce withdrawTx walletUpdateMany
  rw [hsnap]
  simp only [hdel, Option.isSome_none, Bool.false_eq_true, if_false]
  simp only [hlen, walletFindUnique] at *
  simp [hge, hTC, hfind2, auditLog, hv]
  rw [if_neg]
  intro hall
  have hcontra := hall wd hwmem
  simp [walletMatchOpt, hwid, hv] at hcontra

/-- A `withdraw` attempt whose reference already exists in the ledger hits
the unique index inside the atomic unit and rolls back completely. -/
theorem withdrawOnce_dup (snap db : DB) (id : String) (amt : Int)
    (dtoRef : Option String) (gen u : String) (aud : Bool)
    (wr wd : WalletRec) (r0 : TxnRec)
    (hsnap : walletFindUnique snap id = some wr)
    (hdb : walletFindUnique db id = some wd)
    (hdel : wr.deletedAt = none)
    (hge : ¬ wr.balance - amt < 0)
    (hv : wd.version = wr.version)
    (hmem : r0 ∈ db.transactions) (hr : r0.reference = dtoRef.getD gen) :
    withdrawOnce snap db id amt dtoRef gen u aud
      = (db, .error .duplicateReference) := by
  obtain ⟨ws, ts, ac⟩ := db
  have hdb' : ws.find? (fun x => x.id == id) = some wd := hdb
  have hlen : (ws.filter (walletMatchOpt id wr.version)).length ≠ 0 := by
    have hne2 := filter_matchOpt_ne_nil ws id wr.version wd hdb' hv
    simpa [List.length_eq_zero] using hne2
  have hTC := transactionCreate_dup
    ⟨applyOptUpdate id wr.version (wr.balance - amt) ws, ts, ac⟩
    { walletId := id, type := .DEBIT, amount := amt,
      balanceBefore := wr.balance, balanceAfter := wr.balance - amt,
      reference := dtoRef.getD gen, performedByUserId := u } r0 hmem hr
  have hwmem : wd ∈ ws := List.mem_of_find?_eq_some hdb'
  have hwid : wd.id = id := by
    simpa using List.find?_some (p := fun (x : WalletRec) => x.id == id) hdb'
  unfold withdrawOnce withdrawTx walletUpdateMany
  rw [hsnap]
  simp only [hdel, Option.isSome_none, Bool.false_eq_true, if_false]
  simp only [hlen, walletFindUnique] at *
  simp [hge, hTC]
  rw [if_neg]
  intro hall
  have hcontra := hall wd hwmem
  simp [walletMatchOpt, hwid, hv] at hcontra

/-- A `withdraw` attempt whose audit write fails rolls back the whole
atomic unit. -/
theorem withdrawOnce_auditFail (snap db : DB) (id : String) (amt : Int)
    (dtoRef : Option String) (gen u : String)
    (wr wd : WalletRec)
    (hsnap : walletFindUnique snap id = some wr)
    (hdb : walletFindUnique db id = some wd)
    (hdel : wr.deletedAt = none)
    (hge : ¬ wr.balance - amt < 0)
    (hv : wd.version = wr.version)
    (hfresh : ∀ r ∈ db.transactions, ¬ r.reference = dtoRef.getD gen) :
    withdrawOnce snap db id amt dtoRef gen u false
      = (db, .error .auditFailure) := by
  obtain ⟨ws, ts, ac⟩ := db
  have hdb' : ws.find? (fun x => x.id == id) = some wd := hdb
  have hlen : (ws.filter (walletMatchOpt id wr.version)).length ≠ 0 := by
    have hne2 := filter_matchOpt_ne_nil ws id wr.version wd hdb' hv
    simpa [List.length_eq_zero] using hne2
  have hfind2 := applyOptUpdate_find_of_version_eq ws id wr.version
    (wr.balance - amt) wd hdb' hv
  have hTC := transactionCreate_ok
    ⟨applyOptUpdate id wr.version (wr.balance - amt) ws, ts, ac⟩
    { walletId := id, type := .DEBIT, amount := amt,
      balanceBefore := wr.balance, balanceAfter := wr.balance - amt,
      reference := dtoRef.getD gen, performedByUserId := u }
    (by simpa using hfresh)
  have hwmem : wd ∈ ws := List.mem_of_find?_eq_some hdb'
  have hwid : wd.id = id := by
    simpa using List.find?_some (p := fun (x : WalletRec) => x.id == id) hdb'
  unfold withdrawOnce withdrawTx walletUpdateMany
  rw [hsnap]
  simp only [hdel, Option.isSome_none, Bool.false_eq_true, if_false]
  simp only [hlen, walletFindUnique] at *
  simp [hge, hTC, hfind2, auditLog]
  rw [if_neg]
  intro hall
  have hcontra := hall wd hwmem
  simp [walletMatchOpt, hwid, hv] at hcontra

/-! ## Rollback lemmas: a failed atomic unit commits nothing -/

/-- A `fund` attempt that ends in any error leaves the database unchanged. -/
theorem fundOnce_rollback (snap db : DB) (id : String) (amt : Int)
    (dtoRef : Option String) (gen u : String) (aud : Bool) (e : SvcError)
    (h : (fundOnce snap db id amt dtoRef gen u aud).2 = .error e) :
    (fundOnce snap db id amt dtoRef gen u aud).1 = db := by
  unfold fundOnce at *
  cases htx : fundTx snap db id amt dtoRef gen u aud with
  | ok p => rw [htx] at h; exact absurd h (fun hc => Except.noConfusion hc)
  | error e' => rfl

/-- A `withdraw` attempt that ends in any error leaves the database
unchanged. -/
theorem withdrawOnce_rollback (snap db : DB) (id : String) (amt : Int)
    (dtoRef : Option String) (gen u : String) (aud : Bool) (e : SvcError)
    (h : (withdrawOnce snap db id amt dtoRef gen u aud).2 = .error e) :
    (withdrawOnce snap db id amt dtoRef gen u aud).1 = db := by
  unfold withdrawOnce at *
  cases htx : withdrawTx snap db id amt dtoRef gen u aud with
  | ok p => rw [htx] at h; exact absurd h (fun hc => Except.noConfusion hc)
  | error e' => rfl

/-- A `transfer` attempt that ends in any error leaves the database
unchanged: neither leg commits. -/
theorem transferOnce_rollback (db : DB) (fromId toId : String) (amt : Int)
    (u g : String) (e : SvcError)
    (h : (transferOnce db fromId toId amt u g).2 = .error e) :
    (transferOnce db fromId toId amt u g).1 = db := by
  unfold transferOnce at *
  cases htx : transferTx db fromId toId amt u g with
  | ok p => rw [htx] at h; exact absurd h (fun hc => Except.noConfusion hc)
  | error e' => rfl

/-! ## Characterization of one transfer attempt -/

/-- A transfer with a missing wallet fails with `NotFound` and changes
nothing. -/
theorem transferOnce_notFound (db : DB) (fromId toId : String) (amt : Int)
    (u g : String)
    (h : walletFindUnique db fromId = none ∨ walletFindUnique db toId = none) :
    transferOnce db fromId toId amt u g = (db, .error .notFound) := by
  unfold transferOnce transferTx
  cases hfm : walletFindUnique db fromId with
  | none => cases htm : walletFindUnique db toId <;> simp
  | some fw0 =>
    cases htm : walletFindUnique db toId with
    | none => simp
    | some tw0 =>
      exfalso
      rcases h with h1 | h2
      · rw [hfm] at h1
        exact Option.noConfusion h1
      · rw [htm] at h2
        exact Option.noConfusion h2

/-- A transfer between wallets of different currencies fails with the
currency-mismatch error and changes nothing. -/
theorem transferOnce_currencyMismatch (db : DB) (fromId toId : String)
    (amt : Int) (u g : String) (fw tw : WalletRec)
    (hf : walletFindUnique db fromId = some fw)
    (ht : walletFindUnique db toId = some tw)
    (hc : fw.currency ≠ tw.currency) :
    transferOnce db fromId toId amt u g = (db, .error .currencyMismatch) := by
  unfold transferOnce transferTx
  rw [hf, ht]
  simp [hc]

/-- A transfer whose source balance is strictly below the amount fails the
sufficiency check and changes nothing. -/
theorem transferOnce_insufficient (db : DB) (fromId toId : String)
    (amt : Int) (u g : String) (fw tw : WalletRec)
    (hf : walletFindUnique db fromId = some fw)
    (ht : walletFindUnique db toId = some tw)
    (hc : fw.currency = tw.currency)
    (hlt : fw.balance < amt) :
    transferOnce db fromId toId amt u g = (db, .error .insufficientFunds) := by
  unfold transferOnce transferTx
  rw [hf, ht]
  simp [hc, hlt]

/-- The `-OUT` and `-IN` references built from one stem differ. -/
theorem refOut_ne_refIn (g : String) : ¬ (g ++ "-OUT") = (g ++ "-IN") := by
  intro h
  have hd := congrArg String.data h
  rw [String.data_append, String.data_append] at hd
  have hc := List.append_cancel_left hd
  exact absurd hc (by decide)

/-- A successful transfer: the source is debited, the destination credited,
both versions bumped by 1, and exactly the two correlated ledger records
(`-OUT` debit, `-IN` credit) are appended, all in one atomic unit. No audit
row is written by `transfer`. -/
theorem transferOnce_success (db : DB) (fromId toId : String) (amt : Int)
    (u g : String) (fw tw : WalletRec)
    (hne : fromId ≠ toId)
    (hf : walletFindUnique db fromId = some fw)
    (ht : walletFindUnique db toId = some tw)
    (hc : fw.currency = tw.currency)
    (hge : ¬ fw.balance < amt)
    (hfr1 : ∀ r ∈ db.transactions, ¬ r.reference = g ++ "-OUT")
    (hfr2 : ∀ r ∈ db.transactions, ¬ r.reference = g ++ "-IN") :
    transferOnce db fromId toId amt u g
      = ({ wallets := applyDelta toId amt (applyDelta fromId (-amt) db.wallets),
           transactions := db.transactions ++
             [{ walletId := fromId, type := .DEBIT, amount := amt,
                balanceBefore := fw.balance, balanceAfter := fw.balance - amt,
                reference := g ++ "-OUT", performedByUserId := u },
              { walletId := toId, type := .CREDIT, amount := amt,
                balanceBefore := tw.balance, balanceAfter := tw.balance + amt,
                reference := g ++ "-IN", performedByUserId := u }],
           auditCount := db.auditCount },
         .ok ({ fw with balance := fw.balance + -amt, version := fw.version + 1 },
              { tw with balance := tw.balance + amt, version := tw.version + 1 })) := by
  obtain ⟨ws, ts, ac⟩ := db
  have hf' : ws.find? (fun x => x.id == fromId) = some fw := hf
  have ht' : ws.find? (fun x => x.id == toId) = some tw := ht
  have hTC1 := transactionCreate_ok ⟨applyDelta fromId (-amt) ws, ts, ac⟩
    { walletId := fromId, type := .DEBIT, amount := amt,
      balanceBefore := fw.balance, balanceAfter := fw.balance - amt,
      reference := g ++ "-OUT", performedByUserId := u }
    (by simpa using hfr1)
  have hfr2' : ∀ r ∈ ts ++
      [(⟨fromId, .DEBIT, amt, fw.balance, fw.balance - amt,
         g ++ "-OUT", u⟩ : TxnRec)],
      ¬ r.reference = g ++ "-IN" := by
    intro r hr
    rcases List.mem_append.mp hr with hr1 | hr2
    · exact hfr2 r hr1
    · have hre : r = ⟨fromId, .DEBIT, amt, fw.balance, fw.balance - amt,
          g ++ "-OUT", u⟩ :=
        List.mem_singleton.mp hr2
      rw [hre]
      exact refOut_ne_refIn g
  have hTC2 := transactionCreate_ok
    ⟨applyDelta toId amt (applyDelta fromId (-amt) ws),
     ts ++ [(⟨fromId, .DEBIT, amt, fw.balance, fw.balance - amt,
       g ++ "-OUT", u⟩ : TxnRec)], ac⟩
    { walletId := toId, type := .CREDIT, amount := amt,
      balanceBefore := tw.balance, balanceAfter := tw.balance + amt,
      reference := g ++ "-IN", performedByUserId := u }
    (by simpa using hfr2')
  have hfind1 := applyDelta_find_self ws fromId (-amt) fw hf'
  have hfindTo1 := applyDelta_find_other ws fromId toId (-amt) (Ne.symm hne)
  have hfindTo2 := applyDelta_find_self (applyDelta fromId (-amt) ws) toId amt
    tw (by rw [hfindTo1]; exact ht')
  have hfindFrom2 := applyDelta_find_other (applyDelta fromId (-amt) ws)
    toId fromId amt hne
  unfold transferOnce transferTx walletUpdateDelta
  rw [hf, ht]
  simp only [hc, bne_self_eq_false, Bool.false_eq_true, if_false]
  simp [hge, hTC1, hTC2, walletFindUnique, hfind1, hfindTo1, hfindTo2,
    hfindFrom2]
  exact hc

/-! ## Inversion of successful atomic units -/

/-- Anything a successful `fund` unit committed: the wallet read in the
snapshot was live, and the final state is exactly the conditional balance
update plus one CREDIT ledger record; the audit write must have succeeded. -/
theorem fundTx_ok_inv (snap db : DB) (id : String) (amt : Int)
    (dtoRef : Option String) (gen u : String) (aud : Bool)
    (db' : DB) (w' : WalletRec)
    (h : fundTx snap db id amt dtoRef gen u aud = .ok (db', w')) :
    ∃ wr, walletFindUnique snap id = some wr ∧ wr.deletedAt = none ∧
      db'.wallets = applyOptUpdate id wr.version (wr.balance + amt) db.wallets ∧
      db'.transactions = db.transactions ++
        [⟨id, .CREDIT, amt, wr.balance, wr.balance + amt, dtoRef.getD gen, u⟩] ∧
      aud = true := by
  unfold fundTx walletUpdateMany at h
  cases hsn : walletFindUnique snap id with
  | none => rw [hsn] at h; exact absurd h (by simp)
  | some wr =>
    rw [hsn] at h
    refine ⟨wr, rfl, ?_⟩
    cases hdel : wr.deletedAt with
    | some t => simp [hdel] at h
    | none =>
      simp only [hdel, Option.isSome_none, Bool.false_eq_true, if_false] at h
      refine ⟨rfl, ?_⟩
      cases hcnt : ((db.wallets.filter (walletMatchOpt id wr.version)).length == 0) with
      | true => simp [hcnt] at h
      | false =>
        simp only [hcnt, Bool.false_eq_true, if_false] at h
        cases hdup : ({ db with
            wallets := applyOptUpdate id wr.version (wr.balance + amt) db.wallets
          } : DB).transactions.any
            (fun r => r.reference == dtoRef.getD gen) with
        | true => simp [transactionCreate, hdup] at h
        | false =>
          simp only [transactionCreate, hdup, Bool.false_eq_true, if_false] at h
          cases hfu : walletFindUnique
              { wallets := applyOptUpdate id wr.version (wr.balance + amt) db.wallets,
                transactions := db.transactions ++
                  [⟨id, .CREDIT, amt, wr.balance, wr.balance + amt, dtoRef.getD gen, u⟩],
                auditCount := db.auditCount } id with
          | none => rw [hfu] at h; simp at h
          | some uw =>
            rw [hfu] at h
            cases aud with
            | false => simp [auditLog] at h
            | true =>
              simp only [auditLog, if_true] at h
              have h1 : db' = _ := (congrArg Prod.fst (Except.ok.inj h)).symm
              rw [h1]
              exact ⟨rfl, rfl, rfl⟩

/-- Anything a successful `withdraw` unit committed: additionally, the
in-unit sufficiency check must have passed, so the written balance is
non-negative whenever the read balance was the true one. -/
theorem withdrawTx_ok_inv (snap db : DB) (id : String) (amt : Int)
    (dtoRef : Option String) (gen u : String) (aud : Bool)
    (db' : DB) (w' : WalletRec)
    (h : withdrawTx snap db id amt dtoRef gen u aud = .ok (db', w')) :
    ∃ wr, walletFindUnique snap id = some wr ∧ wr.deletedAt = none ∧
      ¬ wr.balance - amt < 0 ∧
      db'.wallets = applyOptUpdate id wr.version (wr.balance - amt) db.wallets ∧
      db'.transactions = db.transactions ++
        [⟨id, .DEBIT, amt, wr.balance, wr.balance - amt, dtoRef.getD gen, u⟩] ∧
      aud = true := by
  unfold withdrawTx walletUpdateMany at h
  cases hsn : walletFindUnique snap id with
  | none => rw [hsn] at h; exact absurd h (by simp)
  | some wr =>
    rw [hsn] at h
    refine ⟨wr, rfl, ?_⟩
    cases hdel : wr.deletedAt with
    | some t => simp [hdel] at h
    | none =>
      simp only [hdel, Option.isSome_none, Bool.false_eq_true, if_false] at h
      refine ⟨rfl, ?_⟩
      by_cases hins : wr.balance - amt < 0
      · simp [hins] at h
      · simp only [hins, if_false] at h
        refine ⟨hins, ?_⟩
        cases hcnt : ((db.wallets.filter (walletMatchOpt id wr.version)).length == 0) with
        | true => simp [hcnt] at h
        | false =>
          simp only [hcnt, Bool.false_eq_true, if_false] at h
          cases hdup : ({ db with
              wallets := applyOptUpdate id wr.version (wr.balance - amt) db.wallets
            } : DB).transactions.any
              (fun r => r.reference == dtoRef.getD gen) with
          | true => simp [transactionCreate, hdup] at h
          | false =>
            simp only [transactionCreate, hdup, Bool.false_eq_true, if_false] at h
            cases hfu : walletFindUnique
                { wallets := applyOptUpdate id wr.version (wr.balance - amt) db.wallets,
                  transactions := db.transactions ++
                    [⟨id, .DEBIT, amt, wr.balance, wr.balance - amt, dtoRef.getD gen, u⟩],
                  auditCount := db.auditCount } id with
            | none => rw [hfu] at h; simp at h
            | some uw =>
              rw [hfu] at h
              cases aud with
              | false => simp [auditLog] at h
              | true =>
                simp only [auditLog, if_true] at h
                have h1 : db' = _ := (congrArg Prod.fst (Except.ok.inj h)).symm
                rw [h1]
                exact ⟨rfl, rfl, rfl⟩

/-- Anything a successful `transfer` unit committed: both wallets existed,
shared a currency and the source passed the sufficiency check, and the
final state is exactly the debit, the credit, and the two correlated
`-OUT` / `-IN` ledger records, with no audit write. -/
theorem transferTx_ok_inv (db : DB) (fromId toId : String) (amt : Int)
    (u g : String) (db' : DB) (p : WalletRec × WalletRec)
    (h : transferTx db fromId toId amt u g = .ok (db', p)) :
    ∃ fw tw, walletFindUnique db fromId = some fw ∧
      walletFindUnique db toId = some tw ∧
      fw.currency = tw.currency ∧ ¬ fw.balance < amt ∧
      db'.wallets = applyDelta toId amt (applyDelta fromId (-amt) db.wallets) ∧
      db'.transactions = db.transactions ++
        [⟨fromId, .DEBIT, amt, fw.balance, fw.balance - amt, g ++ "-OUT", u⟩,
         ⟨toId, .CREDIT, amt, tw.balance, tw.balance + amt, g ++ "-IN", u⟩] ∧
      db'.auditCount = db.auditCount := by
  unfold transferTx walletUpdateDelta at h
  cases hfm : walletFindUnique db fromId with
  | none =>
    rw [hfm] at h
    cases htm : walletFindUnique db toId <;> rw [htm] at h <;> simp at h
  | some fw =>
    rw [hfm] at h
    cases htm : walletFindUnique db toId with
    | none => rw [htm] at h; simp at h
    | some tw =>
      rw [htm] at h
      refine ⟨fw, tw, rfl, rfl, ?_⟩
      by_cases hc : fw.currency = tw.currency
      case neg => simp [bne_iff_ne, hc] at h
      case pos =>
        simp only [hc, bne_self_eq_false, Bool.false_eq_true, if_false] at h
        refine ⟨hc, ?_⟩
        by_cases hlt : fw.balance < amt
        · simp [hlt] at h
        · simp only [hlt, if_false] at h
          refine ⟨hlt, ?_⟩
          cases hdup1 : ({ db with
              wallets := applyDelta fromId (-amt) db.wallets } : DB).transactions.any
              (fun r => r.reference == g ++ "-OUT") with
          | true => simp [transactionCreate, hdup1] at h
          | false =>
            simp only [transactionCreate, hdup1, Bool.false_eq_true, if_false] at h
            cases hdup2 : (db.transactions ++
              [(⟨fromId, .DEBIT, amt, fw.balance, fw.balance - amt,
                 g ++ "-OUT", u⟩ : TxnRec)]).any
                (fun r => r.reference == g ++ "-IN") with
            | true => simp [hdup2] at h
            | false =>
              simp only [hdup2, Bool.false_eq_true, if_false] at h
              cases hfu1 : walletFindUnique
                  { wallets := applyDelta toId amt (applyDelta fromId (-amt) db.wallets),
                    transactions := (db.transactions ++
                      [⟨fromId, .DEBIT, amt, fw.balance, fw.balance - amt, g ++ "-OUT", u⟩]) ++
                      [⟨toId, .CREDIT, amt, tw.balance, tw.balance + amt, g ++ "-IN", u⟩],
                    auditCount := db.auditCount } fromId with
              | none => rw [hfu1] at h; simp at h
              | some uf =>
                rw [hfu1] at h
                cases hfu2 : walletFindUnique
                    { wallets := applyDelta toId amt (applyDelta fromId (-amt) db.wallets),
                      transactions := (db.transactions ++
                        [⟨fromId, .DEBIT, amt, fw.balance, fw.balance - amt, g ++ "-OUT", u⟩]) ++
                        [⟨toId, .CREDIT, amt, tw.balance, tw.balance + amt, g ++ "-IN", u⟩],
                      auditCount := db.auditCount } toId with
                | none => rw [hfu2] at h; simp at h
                | some ut =>
                  rw [hfu2] at h
                  have h1 : db' = _ := (congrArg Prod.fst (Except.ok.inj h)).symm
                  rw [h1]
                  refine ⟨rfl, ?_, rfl⟩
                  simp

/-! ## Retry-loop lemmas -/

/-- The loop executes the wrapped operation at most `n` times. -/
theorem retryLoop_execs_le (op : Nat → Except SvcError α) :
    ∀ (n a : Nat), (executeWithRetryLoop op a n).execs ≤ n := by
  intro n
  induction n with
  | zero => intro a; simp [executeWithRetryLoop]
  | succ n ih =>
    intro a
    unfold executeWithRetryLoop
    cases hop : op a with
    | ok v => simp
    | error e =>
      cases hre : isRetryableConflict e with
      | false => simp [hre]
      | true =>
        simp [hre]
        have := ih (a + 1)
        omega

/-- The loop never surfaces the transient concurrent-modification conflict:
it is always caught and either retried or replaced by the terminal
high-contention error. -/
theorem retryLoop_ne_cm (op : Nat → Except SvcError α) :
    ∀ (n a : Nat),
      (executeWithRetryLoop op a n).result ≠ .error .concurrentModification := by
  intro n
  induction n with
  | zero => intro a; simp [executeWithRetryLoop]
  | succ n ih =>
    intro a
    unfold executeWithRetryLoop
    cases hop : op a with
    | ok v => simp
    | error e =>
      cases hre : isRetryableConflict e with
      | false =>
        simp [hre]
        intro hc
        rw [hc] at hre
        simp [isRetryableConflict] at hre
      | true =>
        simp [hre]
        exact ih (a + 1)

/-- Every backoff sleep recorded by the loop is `2 ^ attempt * 10`
milliseconds for some attempt number in range. -/
theorem retryLoop_sleeps_mem (op : Nat → Except SvcError α) :
    ∀ (n a d : Nat), d ∈ (executeWithRetryLoop op a n).sleeps →
      ∃ k, a ≤ k ∧ k < a + n ∧ d = 2 ^ k * 10 := by
  intro n
  induction n with
  | zero => intro a d hd; simp [executeWithRetryLoop] at hd
  | succ n ih =>
    intro a d hd
    unfold executeWithRetryLoop at hd
    cases hop : op a with
    | ok v => rw [hop] at hd; simp at hd
    | error e =>
      rw [hop] at hd
      cases hre : isRetryableConflict e with
      | false => simp [hre] at hd
      | true =>
        simp [hre] at hd
        rcases hd with hd | hd
        · exact ⟨a, le_refl a, by omega, hd⟩
        · rcases ih (a + 1) d hd with ⟨k, hk1, hk2, hk3⟩
          exact ⟨k, by omega, by omega, hk3⟩

/-- When the first `k - 1` attempts all fail with the retryable conflict and
attempt `k` succeeds, the loop returns that success. -/
theorem retryLoop_first_ok (op : Nat → Except SvcError α) :
    ∀ (n a k : Nat) (v : α), a ≤ k → k < a + n →
      (∀ j, a ≤ j → j < k → op j = .error .concurrentModification) →
      op k = .ok v →
      (executeWithRetryLoop op a n).result = .ok v := by
  intro n
  induction n with
  | zero => intro a k v h1 h2 h3 h4; omega
  | succ n ih =>
    intro a k v h1 h2 h3 h4
    unfold executeWithRetryLoop
    by_cases hak : k = a
    · subst hak
      simp [h4]
    · have hlt : a < k := by omega
      have hopa := h3 a (le_refl a) hlt
      rw [hopa]
      simp [isRetryableConflict]
      exact ih (a + 1) k v (by omega) (by omega)
        (fun j hj1 hj2 => h3 j (by omega) hj2) h4

/-- When the first `k - 1` attempts all fail with the retryable conflict and
attempt `k` raises a non-retryable error, the loop rethrows it unchanged. -/
theorem retryLoop_first_err (op : Nat → Except SvcError α) :
    ∀ (n a k : Nat) (e : SvcError), a ≤ k → k < a + n →
      (∀ j, a ≤ j → j < k → op j = .error .concurrentModification) →
      op k = .error e → isRetryableConflict e = false →
      (executeWithRetryLoop op a n).result = .error e := by
  intro n
  induction n with
  | zero => intro a k e h1 h2 h3 h4 h5; omega
  | succ n ih =>
    intro a k e h1 h2 h3 h4 h5
    unfold executeWithRetryLoop
    by_cases hak : k = a
    · subst hak
      simp [h4, h5]
    · have hlt : a < k := by omega
      have hopa := h3 a (le_refl a) hlt
      rw [hopa]
      simp [isRetryableConflict]
      exact ih (a + 1) k e (by omega) (by omega)
        (fun j hj1 hj2 => h3 j (by omega) hj2) h4 h5

/-- Exhausting all three default attempts on the retryable conflict: the
trace is exactly three executions, backoff sleeps of 2^1*10, 2^2*10 and
2^3*10 milliseconds, and the terminal high-contention error. -/
theorem retry_exhaust_cm (op : Nat → Except SvcError α)
    (h : ∀ j, 1 ≤ j → j ≤ 3 → op j = .error .concurrentModification) :
    executeWithRetry op MAX_RETRIES
      = ⟨.error .highContention, [20, 40, 80], 3⟩ := by
  have h1 := h 1 (by omega) (by omega)
  have h2 := h 2 (by omega) (by omega)
  have h3 := h 3 (by omega) (by omega)
  unfold executeWithRetry MAX_RETRIES
  simp [executeWithRetryLoop, h1, h2, h3, isRetryableConflict]

/-! ## Sample data used by witnesses and counterexamples -/

/-- A live NGN wallet with balance 1000.0000 (10^7 scaled units). -/
def sampleWallet : WalletRec := ⟨"w1", "Main", "NGN", 10000000, 0, "u1", none⟩

/-- A second live NGN wallet with balance 0, version 5. -/
def sampleWallet2 : WalletRec := ⟨"w2", "Side", "NGN", 0, 5, "u1", none⟩

/-- A database with the two sample wallets and an empty ledger. -/
def sampleDB : DB := ⟨[sampleWallet, sampleWallet2], [], 0⟩

/-! ## The claims -/

/-- C1: for every wallet with balance b and every withdrawal amount a > b,
withdraw fails with `InsufficientFunds` and leaves the wallet's balance,
version and the whole ledger unchanged (the atomic unit rolls back before
any write); the error reaches the caller unchanged through the retry
wrapper; and because the sufficiency check runs inside the same atomic unit
against the freshly-read balance, no committed wallet balance is ever
negative after any withdraw call. -/
theorem withdraw_insufficient_funds_atomic (db : DB) (id : String)
    (amt : Int) (dtoRef : Option String) (gen u : String) (aud : Bool)
    (w : WalletRec)
    (hf : walletFindUnique db id = some w)
    (hdel : w.deletedAt = none)
    (hlt : w.balance < amt) :
    withdrawOnce db db id amt dtoRef gen u aud = (db, .error .insufficientFunds)
    ∧ (executeWithRetry
        (fun _ => (withdrawOnce db db id amt dtoRef gen u aud).2)
        MAX_RETRIES).result = .error .insufficientFunds
    ∧ ((∀ x ∈ db.wallets, 0 ≤ x.balance) →
        ∀ (id' : String) (amt' : Int) (dtoRef' : Option String)
          (gen' u' : String) (aud' : Bool) (x : WalletRec),
          x ∈ (withdrawOnce db db id' amt' dtoRef' gen' u' aud').1.wallets →
          0 ≤ x.balance) := by
  have hmain : withdrawOnce db db id amt dtoRef gen u aud
      = (db, .error .insufficientFunds) :=
    withdrawOnce_insufficient db db id amt dtoRef gen u aud w hf hdel (by omega)
  refine ⟨hmain, ?_, ?_⟩
  · exact retryLoop_first_err
      (fun _ => (withdrawOnce db db id amt dtoRef gen u aud).2)
      3 1 1 .insufficientFunds (by omega) (by omega)
      (fun j h1 h2 => absurd h2 (by omega))
      (by rw [hmain]) rfl
  · intro hpos id' amt' dtoRef' gen' u' aud' x hx
    unfold withdrawOnce at hx
    cases htx : withdrawTx db db id' amt' dtoRef' gen' u' aud' with
    | error e =>
      rw [htx] at hx
      have hx3 : x ∈ db.wallets := hx
      exact hpos x hx3
    | ok p =>
      obtain ⟨db2, w2⟩ := p
      rw [htx] at hx
      have hx3 : x ∈ db2.wallets := hx
      rcases withdrawTx_ok_inv db db id' amt' dtoRef' gen' u' aud' db2 w2 htx
        with ⟨wr, hsn, hdel2, hins, hws, hts, haud⟩
      rw [hws] at hx3
      rcases mem_applyOptUpdate _ _ _ _ x hx3 with hmem | hbal
      · exact hpos x hmem
      · rw [hbal]
        omega

/-- C1 witness: withdrawing 2000.0000 from the sample wallet holding
1000.0000 fails with `InsufficientFunds` and leaves the state unchanged. -/
theorem withdraw_insufficient_funds_atomic_witness :
    withdrawOnce sampleDB sampleDB "w1" 20000000 none "G" "u1" true
      = (sampleDB, .error .insufficientFunds) :=
  (withdraw_insufficient_funds_atomic sampleDB "w1" 20000000 none "G" "u1"
    true sampleWallet (by decide) (by decide) (by decide)).1

/-- C2: the balance/version update of fund and withdraw is applied only
where the row's live version (`wd.version`) equals the version read at the
start of the attempt (`wr.version`): on a match the committed row carries
exactly version + 1 (and the caller gets it back), and on a mismatch the
conditional update matches zero rows, the attempt raises the
concurrent-modification conflict, and nothing at all is committed. -/
theorem optimistic_version_guard (snap db : DB) (id : String) (amt : Int)
    (dtoRef : Option String) (gen u : String) (aud : Bool)
    (wr wd : WalletRec)
    (hnd : db.walletIdsNodup)
    (hsnap : walletFindUnique snap id = some wr)
    (hdb : walletFindUnique db id = some wd)
    (hdel : wr.deletedAt = none) :
    (wd.version ≠ wr.version →
      fundOnce snap db id amt dtoRef gen u aud
        = (db, .error .concurrentModification))
    ∧ (wd.version = wr.version →
        (∀ r ∈ db.transactions, ¬ r.reference = dtoRef.getD gen) →
        walletFindUnique (fundOnce snap db id amt dtoRef gen u true).1 id
          = some { wd with balance := wr.balance + amt, version := wd.version + 1 }
        ∧ (fundOnce snap db id amt dtoRef gen u true).2
          = .ok { wd with balance := wr.balance + amt, version := wd.version + 1 })
    ∧ (wd.version ≠ wr.version → ¬ wr.balance - amt < 0 →
        withdrawOnce snap db id amt dtoRef gen u aud
          = (db, .error .concurrentModification))
    ∧ (wd.version = wr.version → ¬ wr.balance - amt < 0 →
        (∀ r ∈ db.transactions, ¬ r.reference = dtoRef.getD gen) →
        walletFindUnique (withdrawOnce snap db id amt dtoRef gen u true).1 id
          = some { wd with balance := wr.balance - amt, version := wd.version + 1 }
        ∧ (withdrawOnce snap db id amt dtoRef gen u true).2
          = .ok { wd with balance := wr.balance - amt, version := wd.version + 1 }) := by
  refine ⟨?_, ?_, ?_, ?_⟩
  · intro hv
    exact fundOnce_conflict snap db id amt dtoRef gen u aud wr wd hnd hsnap
      hdb hdel hv
  · intro hv hfresh
    rw [fundOnce_success snap db id amt dtoRef gen u wr wd hsnap hdb hdel
      hv hfresh]
    have hdb' : db.wallets.find? (fun x => x.id == id) = some wd := hdb
    constructor
    · exact applyOptUpdate_find_of_version_eq db.wallets id wr.version
        (wr.balance + amt) wd hdb' hv
    · rfl
  · intro hv hge
    exact withdrawOnce_conflict snap db id amt dtoRef gen u aud wr wd hnd
      hsnap hdb hdel hge hv
  · intro hv hge hfresh
    rw [withdrawOnce_success snap db id amt dtoRef gen u wr wd hsnap hdb hdel
      hge hv hfresh]
    have hdb' : db.wallets.find? (fun x => x.id == id) = some wd := hdb
    constructor
    · exact applyOptUpdate_find_of_version_eq db.wallets id wr.version
        (wr.balance - amt) wd hdb' hv
    · rfl

/-- C2 witness: funding the sample wallet (snapshot and live state agree at
version 0) commits version 1; against a live state whose version moved to 1,
the same attempt raises the concurrent-modification conflict and commits
nothing. -/
theorem optimistic_version_guard_witness :
    ((fundOnce sampleDB sampleDB "w1" 500 none "G" "u1" true).2
      = .ok ⟨"w1", "Main", "NGN", 10000500, 1, "u1", none⟩)
    ∧ fundOnce sampleDB
        ⟨[⟨"w1", "Main", "NGN", 10000000, 1, "u1", none⟩, sampleWallet2], [], 0⟩
        "w1" 500 none "G" "u1" true
      = (⟨[⟨"w1", "Main", "NGN", 10000000, 1, "u1", none⟩, sampleWallet2], [], 0⟩,
         .error .concurrentModification) :=
  ⟨((optimistic_version_guard sampleDB sampleDB "w1" 500 none "G" "u1" true
      sampleWallet sampleWallet (by decide) (by decide) (by decide)
      (by decide)).2.1 (by decide) (by decide)).2,
   (optimistic_version_guard sampleDB
      ⟨[⟨"w1", "Main", "NGN", 10000000, 1, "u1", none⟩, sampleWallet2], [], 0⟩
      "w1" 500 none "G" "u1" true
      sampleWallet ⟨"w1", "Main", "NGN", 10000000, 1, "u1", none⟩
      (by decide) (by decide) (by decide) (by decide)).1 (by decide)⟩

/-- C3: the retry wrapper executes the atomic unit at most `MAX_RETRIES = 3`
times; every backoff sleep is base-delay-10 × 2^attempt milliseconds; the
transient concurrent-modification conflict never escapes the wrapper;
exhausting all three attempts on that conflict yields exactly the trace of 3
executions, sleeps [20, 40, 80] ms and the terminal high-contention error;
when an attempt eventually succeeds after conflicts its value is returned;
and a non-retryable error is rethrown unchanged from the first attempt that
raises it. -/
theorem executeWithRetry_policy {α : Type} (op : Nat → Except SvcError α) :
    (executeWithRetry op MAX_RETRIES).execs ≤ MAX_RETRIES
    ∧ (executeWithRetry op MAX_RETRIES).result
        ≠ .error .concurrentModification
    ∧ (∀ d ∈ (executeWithRetry op MAX_RETRIES).sleeps,
        ∃ k, 1 ≤ k ∧ k ≤ MAX_RETRIES ∧ d = 2 ^ k * 10)
    ∧ ((∀ j, 1 ≤ j → j ≤ MAX_RETRIES →
          op j = .error .concurrentModification) →
        executeWithRetry op MAX_RETRIES
          = ⟨.error .highContention, [20, 40, 80], 3⟩)
    ∧ (∀ k v, 1 ≤ k → k ≤ MAX_RETRIES →
        (∀ j, 1 ≤ j → j < k → op j = .error .concurrentModification) →
        op k = .ok v →
        (executeWithRetry op MAX_RETRIES).result = .ok v)
    ∧ (∀ k e, 1 ≤ k → k ≤ MAX_RETRIES →
        (∀ j, 1 ≤ j → j < k → op j = .error .concurrentModification) →
        op k = .error e → isRetryableConflict e = false →
        (executeWithRetry op MAX_RETRIES).result = .error e) := by
  refine ⟨retryLoop_execs_le op 3 1, retryLoop_ne_cm op 3 1, ?_, ?_, ?_, ?_⟩
  · intro d hd
    rcases retryLoop_sleeps_mem op 3 1 d hd with ⟨k, hk1, hk2, hk3⟩
    exact ⟨k, hk1, by simp only [MAX_RETRIES]; omega, hk3⟩
  · exact retry_exhaust_cm op
  · intro k v h1 h2 h3 h4
    exact retryLoop_first_ok op 3 1 k v h1
      (by simp only [MAX_RETRIES] at h2; omega) h3 h4
  · intro k e h1 h2 h3 h4 h5
    exact retryLoop_first_err op 3 1 k e h1
      (by simp only [MAX_RETRIES] at h2; omega) h3 h4 h5

/-- C3 witness: an operation that raises the retryable conflict on all
three attempts surfaces the terminal high-contention error after backoff
sleeps of 20, 40 and 80 milliseconds. -/
theorem executeWithRetry_policy_witness :
    executeWithRetry
        (fun _ => (.error .concurrentModification : Except SvcError Nat))
        MAX_RETRIES
      = ⟨.error .highContention, [20, 40, 80], 3⟩ :=
  (executeWithRetry_policy
    (fun _ => (.error .concurrentModification : Except SvcError Nat))).2.2.2.1
    (fun _ _ _ => rfl)

/-- A ledger holding one committed CREDIT of 500.0000 under the
caller-supplied reference FUND-001, with the wallet already credited
(balance 1000.0000, version 1). -/
def dupRefDB : DB :=
  ⟨[⟨"w1", "Main", "NGN", 10000000, 1, "u1", none⟩],
   [⟨"w1", .CREDIT, 5000000, 5000000, 10000000, "FUND-001", "u1"⟩], 0⟩

/-- C4 counterexample: re-submitting fund with the already-used reference
FUND-001 does not return the prior result unchanged - the unique index on
the reference makes the attempt fail with a duplicate-reference error (the
claim says the prior result is returned rather than an error). -/
theorem fund_duplicate_reference_counterexample :
    fundOnce dupRefDB dupRefDB "w1" 5000000 (some "FUND-001") "TXN-GEN" "u1"
        true
      = (dupRefDB, .error .duplicateReference) := by
  decide

/-- C4 (amended): a second fund (or withdraw) call whose caller-supplied
reference already exists in the ledger does not double-credit (or
double-debit): the attempt hits the `transactions_reference_key` unique
index inside the atomic unit, the balance update rolls back with it, and
the database is left exactly as it was - one ledger entry and one balance
change for that reference - but the call fails with the duplicate-reference
error instead of returning the prior result. -/
theorem fund_duplicate_reference_rolls_back (db : DB) (id : String)
    (amt : Int) (r gen u : String) (aud : Bool) (w : WalletRec) (r0 : TxnRec)
    (hf : walletFindUnique db id = some w)
    (hdel : w.deletedAt = none)
    (hmem : r0 ∈ db.transactions)
    (hr : r0.reference = r) :
    fundOnce db db id amt (some r) gen u aud
      = (db, .error .duplicateReference)
    ∧ (¬ w.balance - amt < 0 →
        withdrawOnce db db id amt (some r) gen u aud
          = (db, .error .duplicateReference)) := by
  constructor
  · exact fundOnce_dup db db id amt (some r) gen u aud w w r0 hf hf hdel rfl
      hmem hr
  · intro hge
    exact withdrawOnce_dup db db id amt (some r) gen u aud w w r0 hf hf hdel
      hge rfl hmem hr

/-- C4 witness: the amended behavior at the concrete duplicate-reference
database. -/
theorem fund_duplicate_reference_rolls_back_witness :
    withdrawOnce dupRefDB dupRefDB "w1" 5000000 (some "FUND-001") "TXN-GEN"
        "u1" true
      = (dupRefDB, .error .duplicateReference) :=
  (fund_duplicate_reference_rolls_back dupRefDB "w1" 5000000 "FUND-001"
    "TXN-GEN" "u1" true ⟨"w1", "Main", "NGN", 10000000, 1, "u1", none⟩
    ⟨"w1", .CREDIT, 5000000, 5000000, 10000000, "FUND-001", "u1"⟩
    (by decide) (by decide) (by decide) (by decide)).2 (by decide)

/-- C5: transfer is atomic. Any error whatsoever rolls the whole unit back;
a missing wallet fails with `NotFound`, differing currencies with the
currency-mismatch error, and an insufficient source balance with
`InsufficientFunds`, in each case leaving both wallets' balances and
versions and the ledger untouched. When transfer succeeds, the committed
state carries the source debit, the destination credit (both with a version
bump) and exactly two appended ledger records - one DEBIT with reference
stem `g` suffixed `-OUT` and one CREDIT suffixed `-IN` - all together. -/
theorem transfer_atomicity (db : DB) (fromId toId : String) (amt : Int)
    (u g : String) :
    (∀ e : SvcError, (transferOnce db fromId toId amt u g).2 = .error e →
      (transferOnce db fromId toId amt u g).1 = db)
    ∧ ((walletFindUnique db fromId = none ∨ walletFindUnique db toId = none) →
        transferOnce db fromId toId amt u g = (db, .error .notFound))
    ∧ (∀ fw tw, walletFindUnique db fromId = some fw →
        walletFindUnique db toId = some tw → fw.currency ≠ tw.currency →
        transferOnce db fromId toId amt u g = (db, .error .currencyMismatch))
    ∧ (∀ fw tw, walletFindUnique db fromId = some fw →
        walletFindUnique db toId = some tw → fw.currency = tw.currency →
        fw.balance < amt →
        transferOnce db fromId toId amt u g = (db, .error .insufficientFunds))
    ∧ (∀ (db' : DB) (uf ut : WalletRec), fromId ≠ toId →
        transferOnce db fromId toId amt u g = (db', .ok (uf, ut)) →
        ∃ fw tw, walletFindUnique db fromId = some fw ∧
          walletFindUnique db toId = some tw ∧
          db'.transactions = db.transactions ++
            [⟨fromId, .DEBIT, amt, fw.balance, fw.balance - amt,
              g ++ "-OUT", u⟩,
             ⟨toId, .CREDIT, amt, tw.balance, tw.balance + amt,
              g ++ "-IN", u⟩] ∧
          walletFindUnique db' fromId
            = some { fw with balance := fw.balance + -amt, version := fw.version + 1 } ∧
          walletFindUnique db' toId
            = some { tw with balance := tw.balance + amt, version := tw.version + 1 }) := by
  refine ⟨?_, ?_, ?_, ?_, ?_⟩
  · intro e he
    exact transferOnce_rollback db fromId toId amt u g e he
  · intro h
    exact transferOnce_notFound db fromId toId amt u g h
  · intro fw tw hf ht hc
    exact transferOnce_currencyMismatch db fromId toId amt u g fw tw hf ht hc
  · intro fw tw hf ht hc hlt
    exact transferOnce_insufficient db fromId toId amt u g fw tw hf ht hc hlt
  · intro db' uf ut hne heq
    unfold transferOnce at heq
    cases htx : transferTx db fromId toId amt u g with
    | error e =>
      rw [htx] at heq
      have hsnd := congrArg Prod.snd heq
      exact absurd hsnd (by simp)
    | ok q =>
      obtain ⟨db2, p⟩ := q
      rw [htx] at heq
      have hfst : db2 = db' := congrArg Prod.fst heq
      rcases transferTx_ok_inv db fromId toId amt u g db2 p htx with
        ⟨fw, tw, hf, ht, hc, hge, hws, hts, hac⟩
      refine ⟨fw, tw, hf, ht, ?_, ?_, ?_⟩
      · rw [← hfst]
        exact hts
      · have hf' : db.wallets.find? (fun x => x.id == fromId) = some fw := hf
        have hfind1 := applyDelta_find_self db.wallets fromId (-amt) fw hf'
        have hfind2 := applyDelta_find_other
          (applyDelta fromId (-amt) db.wallets) toId fromId amt hne
        rw [← hfst]
        unfold walletFindUnique
        rw [hws, hfind2, hfind1]
      · have ht' : db.wallets.find? (fun x => x.id == toId) = some tw := ht
        have hfind1 := applyDelta_find_other db.wallets fromId toId (-amt)
          (Ne.symm hne)
        have hfind2 := applyDelta_find_self
          (applyDelta fromId (-amt) db.wallets) toId amt tw
          (by rw [hfind1]; exact ht')
        rw [← hfst]
        unfold walletFindUnique
        rw [hws, hfind2]

/-- C5 witness: a transfer from a missing wallet fails with `NotFound` and
changes nothing. -/
theorem transfer_atomicity_witness :
    transferOnce sampleDB "nope" "w2" 5 "u1" "T"
      = (sampleDB, .error .notFound) :=
  (transfer_atomicity sampleDB "nope" "w2" 5 "u1" "T").2.1
    (Or.inl (by decide))

/-- Two zero-balance NGN wallets used to exercise transfer with amount 0. -/
def zeroAmtDB : DB :=
  ⟨[⟨"wa", "A", "NGN", 0, 0, "u1", none⟩,
    ⟨"wb", "B", "NGN", 0, 0, "u1", none⟩], [], 0⟩

/-- C6 counterexample: `transfer` itself never validates the amount. A
transfer of amount 0 passes the sufficiency check (`balance < 0` is false),
succeeds, and writes two ledger records whose amount is 0 - not strictly
positive, contradicting the claim that every written record has a strictly
positive amount. -/
theorem transfer_zero_amount_counterexample :
    transferOnce zeroAmtDB "wa" "wb" 0 "u1" "T1"
      = (⟨[⟨"wa", "A", "NGN", 0, 1, "u1", none⟩,
           ⟨"wb", "B", "NGN", 0, 1, "u1", none⟩],
          [⟨"wa", .DEBIT, 0, 0, 0, "T1-OUT", "u1"⟩,
           ⟨"wb", .CREDIT, 0, 0, 0, "T1-IN", "u1"⟩], 0⟩,
         .ok (⟨"wa", "A", "NGN", 0, 1, "u1", none⟩,
              ⟨"wb", "B", "NGN", 0, 1, "u1", none⟩))
    ∧ ((transferOnce zeroAmtDB "wa" "wb" 0 "u1" "T1").1.transactions.all
        (fun t => amountDtoValid t.amount)) = false := by
  constructor
  · decide
  · decide

/-- C6 (amended): every ledger record written by a successful fund or
withdraw satisfies its balance equation (after = before + amount for
CREDIT, after = before − amount for DEBIT) and - because the fund/withdraw
DTOs validate `@IsPositive` - has a strictly positive amount; both records
written by a successful transfer satisfy their balance equations, but
transfer performs no amount validation of its own, so their amounts are
only whatever the caller passed. -/
theorem ledger_record_equations :
    (∀ (snap db : DB) (id : String) (amt : Int) (dtoRef : Option String)
       (gen u : String) (aud : Bool) (db' : DB) (w' : WalletRec),
      amountDtoValid amt = true →
      fundTx snap db id amt dtoRef gen u aud = .ok (db', w') →
      ∃ rec : TxnRec, db'.transactions = db.transactions ++ [rec]
        ∧ rec.type = .CREDIT ∧ 0 < rec.amount
        ∧ rec.balanceAfter = rec.balanceBefore + rec.amount)
    ∧ (∀ (snap db : DB) (id : String) (amt : Int) (dtoRef : Option String)
         (gen u : String) (aud : Bool) (db' : DB) (w' : WalletRec),
        amountDtoValid amt = true →
        withdrawTx snap db id amt dtoRef gen u aud = .ok (db', w') →
        ∃ rec : TxnRec, db'.transactions = db.transactions ++ [rec]
          ∧ rec.type = .DEBIT ∧ 0 < rec.amount
          ∧ rec.balanceAfter = rec.balanceBefore - rec.amount)
    ∧ (∀ (db : DB) (fromId toId : String) (amt : Int) (u g : String)
         (db' : DB) (p : WalletRec × WalletRec),
        transferTx db fromId toId amt u g = .ok (db', p) →
        ∃ debitRec creditRec : TxnRec,
          db'.transactions = db.transactions ++ [debitRec, creditRec]
          ∧ debitRec.type = .DEBIT
          ∧ debitRec.balanceAfter = debitRec.balanceBefore - debitRec.amount
          ∧ creditRec.type = .CREDIT
          ∧ creditRec.balanceAfter = creditRec.balanceBefore + creditRec.amount
          ∧ debitRec.amount = amt ∧ creditRec.amount = amt) := by
  refine ⟨?_, ?_, ?_⟩
  · intro snap db id amt dtoRef gen u aud db' w' hamt htx
    rcases fundTx_ok_inv snap db id amt dtoRef gen u aud db' w' htx with
      ⟨wr, hsn, hdel, hws, hts, haud⟩
    exact ⟨⟨id, .CREDIT, amt, wr.balance, wr.balance + amt,
        dtoRef.getD gen, u⟩,
      hts, rfl, of_decide_eq_true hamt, rfl⟩
  · intro snap db id amt dtoRef gen u aud db' w' hamt htx
    rcases withdrawTx_ok_inv snap db id amt dtoRef gen u aud db' w' htx with
      ⟨wr, hsn, hdel, hins, hws, hts, haud⟩
    exact ⟨⟨id, .DEBIT, amt, wr.balance, wr.balance - amt,
        dtoRef.getD gen, u⟩,
      hts, rfl, of_decide_eq_true hamt, rfl⟩
  · intro db fromId toId amt u g db' p htx
    rcases transferTx_ok_inv db fromId toId amt u g db' p htx with
      ⟨fw, tw, hf, ht, hc, hge, hws, hts, hac⟩
    exact ⟨⟨fromId, .DEBIT, amt, fw.balance, fw.balance - amt,
        g ++ "-OUT", u⟩,
      ⟨toId, .CREDIT, amt, tw.balance, tw.balance + amt, g ++ "-IN", u⟩,
      hts, rfl, rfl, rfl, rfl, rfl, rfl⟩

/-- C6 witness: the record written by funding the sample wallet with
0.0500 satisfies the CREDIT balance equation and is strictly positive. -/
theorem ledger_record_equations_witness :
    ∃ rec : TxnRec,
      (⟨[⟨"w1", "Main", "NGN", 10000500, 1, "u1", none⟩, sampleWallet2],
        [⟨"w1", .CREDIT, 500, 10000000, 10000500, "G", "u1"⟩], 1⟩ : DB).transactions
        = sampleDB.transactions ++ [rec]
      ∧ rec.type = .CREDIT ∧ 0 < rec.amount
      ∧ rec.balanceAfter = rec.balanceBefore + rec.amount :=
  ledger_record_equations.1 sampleDB sampleDB "w1" 500 none "G" "u1" true
    ⟨[⟨"w1", "Main", "NGN", 10000500, 1, "u1", none⟩, sampleWallet2],
     [⟨"w1", .CREDIT, 500, 10000000, 10000500, "G", "u1"⟩], 1⟩
    ⟨"w1", "Main", "NGN", 10000500, 1, "u1", none⟩
    (by decide) (by decide)

/-- C7 counterexample: when the audit write fails during a fund,
`AuditService.log` rethrows inside the `$transaction` callback, so the whole
atomic unit - including the already-applied balance update - rolls back and
the operation returns the audit error instead of the updated wallet,
contradicting the claim that the committed mutation is unaffected and still
returned. -/
theorem fund_audit_failure_counterexample :
    fundOnce sampleDB sampleDB "w1" 500 none "T7" "u1" false
      = (sampleDB, .error .auditFailure) := by
  decide

/-- C7 (amended): a failure of the audit collaborator is rethrown by
`AuditService.log` and propagates. For fund and withdraw the audit call is
awaited inside the atomic unit, so the balance mutation rolls back with it
and the caller gets the audit error. For create and delete the audit call
happens after the mutation has committed: the wallet insert (resp. the
delete) survives, but the operation still throws the audit error instead of
returning normally. -/
theorem audit_failure_propagation (db : DB) (id : String) (amt : Int)
    (gen u : String) (w : WalletRec) (newId owner nm cur : String)
    (hf : walletFindUnique db id = some w)
    (hdel : w.deletedAt = none)
    (hfresh : ∀ r ∈ db.transactions, ¬ r.reference = gen) :
    fundOnce db db id amt none gen u false = (db, .error .auditFailure)
    ∧ (¬ w.balance - amt < 0 →
        withdrawOnce db db id amt none gen u false
          = (db, .error .auditFailure))
    ∧ ((∀ x ∈ db.wallets,
          ¬ (x.userId = owner ∧ x.name = nm ∧ x.currency = toUpperAscii cur)) →
        (createWallet db newId owner nm cur false).1.wallets
          = db.wallets ++ [⟨newId, nm, toUpperAscii cur, 0, 0, owner, none⟩]
        ∧ (createWallet db newId owner nm cur false).2
          = .error .auditFailure)
    ∧ (w.userId = u →
        deleteWallet db id u false
          = (⟨db.wallets.filter (fun x => !(x.id == id)),
              db.transactions.filter (fun t => !(t.walletId == id)),
              db.auditCount⟩,
             .error .auditFailure)) := by
  refine ⟨?_, ?_, ?_, ?_⟩
  · exact fundOnce_auditFail db db id amt none gen u w w hf hf hdel rfl hfresh
  · intro hge
    exact withdrawOnce_auditFail db db id amt none gen u w w hf hf hdel hge
      rfl hfresh
  · intro hcol
    have hany : (db.wallets.any (fun x =>
        x.userId == owner && x.name == nm && x.currency == toUpperAscii cur))
        = false := by
      rw [List.any_eq_false]
      intro x hxx
      have hnc := hcol x hxx
      simp only [Bool.and_eq_true, beq_iff_eq]
      tauto
    unfold createWallet
    simp [hany, auditLog]
  · intro hown
    unfold deleteWallet
    rw [hf]
    simp [hown, auditLog]

/-- C7 witness: creating a wallet whose audit write fails leaves the
committed wallet row in place while the call reports the audit error. -/
theorem audit_failure_propagation_witness :
    (createWallet sampleDB "w9" "u1" "Biz" "usd" false).1.wallets
      = sampleDB.wallets ++ [⟨"w9", "Biz", "USD", 0, 0, "u1", none⟩]
    ∧ (createWallet sampleDB "w9" "u1" "Biz" "usd" false).2
      = .error .auditFailure := by
  have h := (audit_failure_propagation sampleDB "w1" 500 "T7" "u1"
    sampleWallet "w9" "u1" "Biz" "usd" (by decide) (by decide)
    (by decide)).2.2.1 (by decide)
  have he : toUpperAscii "usd" = "USD" := by decide
  rw [he] at h
  exact h

/-- C8 counterexample: the `CreateWalletDto` validation only checks
`@Length(3, 3)` and `@Matches(/^[A-Z]{3}$/)` - it never consults
`SUPPORTED_CURRENCIES`. The well-formed but unrecognized code ZZZ passes
validation and `create` happily persists a ZZZ wallet, contradicting the
claim that unrecognized 3-letter codes are rejected. -/
theorem create_unrecognized_currency_counterexample :
    currencyDtoValid "ZZZ" = true
    ∧ ("ZZZ" ∈ SUPPORTED_CURRENCIES → False)
    ∧ createWallet ⟨[], [], 0⟩ "w1" "u1" "Main" "ZZZ" true
      = (⟨[⟨"w1", "Main", "ZZZ", 0, 0, "u1", none⟩], [], 1⟩,
         .ok ⟨"w1", "Main", "ZZZ", 0, 0, "u1", none⟩) := by
  refine ⟨by decide, by decide, by decide⟩

/-- C8 (amended): `create(ownerId, name, currencyCode)` returns a new
wallet with balance 0 and version 0 owned by ownerId, and the DTO rejects a
currency code exactly when it is not a 3-character all-uppercase-ASCII
string; a well-formed 3-uppercase-letter code that is not in
`SUPPORTED_CURRENCIES` is accepted, not rejected. -/
theorem create_wallet_validation :
    (∀ c : String, currencyDtoValid c = true
      ↔ (c.length = 3 ∧ ∀ ch ∈ c.toList, 'A' ≤ ch ∧ ch ≤ 'Z'))
    ∧ (∀ (db : DB) (newId owner nm c : String),
        (∀ x ∈ db.wallets,
          ¬ (x.userId = owner ∧ x.name = nm ∧ x.currency = toUpperAscii c)) →
        createWallet db newId owner nm c true
          = ({ db with
                wallets := db.wallets ++
                  [⟨newId, nm, toUpperAscii c, 0, 0, owner, none⟩],
                auditCount := db.auditCount + 1 },
             .ok ⟨newId, nm, toUpperAscii c, 0, 0, owner, none⟩)) := by
  constructor
  · intro c
    simp [currencyDtoValid, List.all_eq_true]
  · intro db newId owner nm c hcol
    have hany : (db.wallets.any (fun x =>
        x.userId == owner && x.name == nm && x.currency == toUpperAscii c))
        = false := by
      rw [List.any_eq_false]
      intro x hxx
      have hnc := hcol x hxx
      simp only [Bool.and_eq_true, beq_iff_eq]
      tauto
    unfold createWallet
    simp [hany, auditLog]

/-- C8 witness: creating a wallet with the recognized code usd yields a USD
wallet with balance 0 and version 0 owned by the caller. -/
theorem create_wallet_validation_witness :
    createWallet (⟨[], [], 0⟩ : DB) "w1" "u1" "Main" "usd" true
      = (⟨[⟨"w1", "Main", toUpperAscii "usd", 0, 0, "u1", none⟩], [], 1⟩,
         .ok ⟨"w1", "Main", toUpperAscii "usd", 0, 0, "u1", none⟩) :=
  create_wallet_validation.2 ⟨[], [], 0⟩ "w1" "u1" "Main" "usd"
    (by decide)

/-- The sample database extended with one ledger record per wallet,
exercising delete. -/
def deleteSampleDB : DB :=
  ⟨[sampleWallet, sampleWallet2],
   [⟨"w1", .CREDIT, 5, 0, 5, "R1", "u1"⟩,
    ⟨"w2", .CREDIT, 7, 0, 7, "R2", "u1"⟩], 0⟩

/-- C9: what `delete` actually does in the code. The `PrismaService` that
`WalletsService` imports (src/prisma/prisma.service.ts) installs no
soft-delete middleware ("Soft delete middleware is not available in Prisma
6"), so `prisma.wallet.delete` physically removes the wallet row, and the
schema's `transactions_walletId_fkey ... ON DELETE CASCADE` removes the
wallet's ledger records with it - no delete marker is set and history is
lost, contradicting the claim (and the code's own "Soft delete" comments).
The ownership half of the claim does hold: a non-owner gets `NotFound` and
nothing changes. -/
theorem delete_wallet_behavior :
    deleteWallet deleteSampleDB "w1" "u1" true
      = (⟨[sampleWallet2], [⟨"w2", .CREDIT, 7, 0, 7, "R2", "u1"⟩], 1⟩,
         .ok ())
    ∧ deleteWallet deleteSampleDB "w1" "u9" true
      = (deleteSampleDB, .error .notFound) := by
  refine ⟨by decide, by decide⟩

/-- C10: debiting a wallet's exact full balance succeeds. A withdraw of
exactly the current balance passes the sufficiency check (which fires only
when balance-after is strictly negative) and leaves balance 0 with the
version bumped; a transfer of exactly the source balance likewise passes
its sufficiency check (which fires only when balance is strictly below the
amount) and succeeds. -/
theorem exact_balance_debit_succeeds (db : DB) (id : String) (gen u : String)
    (w : WalletRec)
    (hf : walletFindUnique db id = some w)
    (hdel : w.deletedAt = none)
    (hpos : 0 < w.balance)
    (hfresh : ∀ r ∈ db.transactions, ¬ r.reference = gen) :
    (withdrawOnce db db id w.balance none gen u true).2
      = .ok { w with balance := 0, version := w.version + 1 }
    ∧ walletFindUnique (withdrawOnce db db id w.balance none gen u true).1 id
      = some { w with balance := 0, version := w.version + 1 }
    ∧ (∀ (toId g : String) (tw : WalletRec), id ≠ toId →
        walletFindUnique db toId = some tw → w.currency = tw.currency →
        (∀ r ∈ db.transactions, ¬ r.reference = g ++ "-OUT") →
        (∀ r ∈ db.transactions, ¬ r.reference = g ++ "-IN") →
        (transferOnce db id toId w.balance u g).2
          = .ok ({ w with balance := 0, version := w.version + 1 },
                 { tw with balance := tw.balance + w.balance, version := tw.version + 1 })) := by
  have hge : ¬ w.balance - w.balance < 0 := by omega
  refine ⟨?_, ?_, ?_⟩
  · rw [withdrawOnce_success db db id w.balance none gen u w w hf hf hdel
      hge rfl hfresh]
    simp
  · rw [withdrawOnce_success db db id w.balance none gen u w w hf hf hdel
      hge rfl hfresh]
    have hf' : db.wallets.find? (fun x => x.id == id) = some w := hf
    have hfind := applyOptUpdate_find_of_version_eq db.wallets id w.version
      (w.balance - w.balance) w hf' rfl
    unfold walletFindUnique
    simp only
    rw [hfind]
    simp
  · intro toId g tw hne ht hc hfr1 hfr2
    rw [transferOnce_success db id toId w.balance u g w tw hne hf ht hc
      (by omega) hfr1 hfr2]
    simp

/-- C10 witness: withdrawing the sample wallet's full 1000.0000 balance
succeeds and leaves balance 0 at version 1. -/
theorem exact_balance_debit_succeeds_witness :
    (withdrawOnce sampleDB sampleDB "w1" 10000000 none "G" "u1" true).2
      = .ok ⟨"w1", "Main", "NGN", 0, 1, "u1", none⟩ :=
  (exact_balance_debit_succeeds sampleDB "w1" "G" "u1" sampleWallet
    (by decide) (by decide) (by decide) (by decide)).1

end NSWallet
